import Mathlib

/-!
Verification of the Comm-B classifier and candidate decoders (comm_b.c).

The C code is embedded shallowly: machine integers become `Nat`/`Int`,
`float`/`double` field values become `ℚ` (every comparison performed by the
code on these values is insensitive to the rounding of the C arithmetic at
the granularity of the raw fields involved, except for the one transcendental
turn-rate predicate, which is kept abstract, see `TRCheck`), and the mutation
of the frame descriptor becomes explicit state passing: each candidate
decoder maps a frame descriptor and a `store` flag to a score and an updated
frame descriptor.
-/

/-- A payload byte (C `unsigned char`). -/
abbrev Byte := Fin 256

/-- Modelled from the spec: `getbit(payload, n)` returns bit `n` (1-indexed,
MSB-first, byte 0 holds bits 1..8) as 0 or 1.  The C function lives in a
file of the repository that is not under src/. -/
def getbit (msg : List Byte) (n : Nat) : Nat :=
  (msg.getD ((n - 1) / 8) 0).val / 2 ^ (7 - (n - 1) % 8) % 2

/-- Accumulator for `getbits`: value of the `k` bits starting at `lo`
(`lo` most significant). -/
def getbitsAux (msg : List Byte) (lo : Nat) : Nat → Nat
  | 0 => 0
  | k + 1 => getbitsAux msg lo k * 2 + getbit msg (lo + k)

/-- Modelled from the spec: `getbits(payload, lo, hi)` returns the unsigned
integer formed by bits `lo..hi` inclusive, `lo` most significant.  The C
function lives in a file of the repository that is not under src/. -/
def getbits (msg : List Byte) (lo hi : Nat) : Nat :=
  getbitsAux msg lo (hi + 1 - lo)

/-- Modelled from the spec: the AIS 6-bit charset table mapping 6-bit codes
to callsign characters ('@', 'A'..'Z', '[','\',']','^','_', ' ', punctuation,
'0'..'9', ':'..'?'); `ais_charset.h` is not under src/. -/
def ais_charset : List Char :=
  ['@', 'A', 'B', 'C', 'D', 'E', 'F', 'G', 'H', 'I', 'J', 'K', 'L', 'M',
   'N', 'O', 'P', 'Q', 'R', 'S', 'T', 'U', 'V', 'W', 'X', 'Y', 'Z',
   '[', '\\', ']', '^', '_',
   ' ', '!', '"', '#', '$', '%', '&', '\'', '(', ')', '*', '+', ',',
   '-', '.', '/',
   '0', '1', '2', '3', '4', '5', '6', '7', '8', '9',
   ':', ';', '<', '=', '>', '?']

/-- Modelled from the spec: the `commb_format` classification values. -/
inductive CommBFormat where
  | not_decoded
  | unknown
  | ambiguous
  | empty_response
  | datalink_caps
  | gicb_caps
  | aircraft_ident
  | acas_ra
  | vertical_intent
  | track_turn
  | heading_speed
  | mrar
  | airborne_position
deriving DecidableEq, Repr

/-- Modelled from the spec: the altitude source values
{UNKNOWN, AIRCRAFT, MCP, FMS, INVALID}. -/
inductive NavAltitudeSource where
  | unknown
  | aircraft
  | mcp
  | fms
  | invalid
deriving DecidableEq, Repr

/-- Modelled from the spec: the heading type values
{GROUND_TRACK, MAGNETIC}. -/
inductive HeadingType where
  | ground_track
  | magnetic
deriving DecidableEq, Repr

/-- Modelled from the spec: nav-mode flag bit VNAV = 4. -/
def NAV_MODE_VNAV : Nat := 4
/-- Modelled from the spec: nav-mode flag bit ALT_HOLD = 2. -/
def NAV_MODE_ALT_HOLD : Nat := 2
/-- Modelled from the spec: nav-mode flag bit APPROACH = 1. -/
def NAV_MODE_APPROACH : Nat := 1

/-- Modelled from the spec: the MRAR source sentinel "invalid" value (0);
the enum is declared in a header that is not under src/. -/
def MRAR_SOURCE_INVALID : Nat := 0
/-- Modelled from the spec: the MRAR DME/DME source tag (3, as pinned down by
the GICB-collision comment in the source: GICB bits 3 and 4 set give
MRAR source = 3). -/
def MRAR_SOURCE_DMEDME : Nat := 3
/-- Modelled from the spec: the MRAR reserved-range lower bound (5, the value
after the four legal sources INS, GNSS, DME/DME, VOR/DME). -/
def MRAR_SOURCE_RESERVED : Nat := 5

/-- Modelled from the spec: the fields of `struct modesMessage` that
comm_b.c reads and writes (the struct is declared in a header that is not
under src/); the nav sub-struct is flattened with a `nav_` prefix. -/
structure ModesMessage where
  msgtype : Nat
  MB : List Byte
  DR : Nat
  UM : Nat
  correctedbits : Nat
  AC : Nat
  commb_format : CommBFormat
  callsign : List Char
  callsign_valid : Bool
  nav_mcp_altitude_valid : Bool
  nav_mcp_altitude : Nat
  nav_fms_altitude_valid : Bool
  nav_fms_altitude : Nat
  nav_qnh_valid : Bool
  nav_qnh : ℚ
  nav_modes_valid : Bool
  nav_modes : Nat
  nav_altitude_source : NavAltitudeSource
  roll_valid : Bool
  roll : ℚ
  heading_valid : Bool
  heading : ℚ
  heading_type : HeadingType
  gs_valid : Bool
  gs_v0 : ℚ
  gs_v2 : ℚ
  gs_selected : ℚ
  track_rate_valid : Bool
  track_rate : ℚ
  tas_valid : Bool
  tas : Nat
  ias_valid : Bool
  ias : Nat
  mach_valid : Bool
  mach : ℚ
  baro_rate_valid : Bool
  baro_rate : Int
  geom_rate_valid : Bool
  geom_rate : Int
  mrar_source_valid : Bool
  mrar_source : Nat
  wind_valid : Bool
  wind_speed : ℚ
  wind_dir : ℚ
  temperature_valid : Bool
  temperature : ℚ
  pressure_valid : Bool
  pressure : ℚ
  turbulence_valid : Bool
  turbulence : Nat
  humidity_valid : Bool
  humidity : ℚ
deriving DecidableEq, Repr

/-- Abstraction of the one transcendental double-precision predicate of
comm_b.c (decodeBDS50): given roll (deg), TAS (kt) and track rate (deg/s),
whether `fabs(68625 * tan(roll*pi/180) / (tas*20*pi) - track_rate) > 2.0`.
Floating-point `tan` is not statable in the embedding, so the predicate is a
parameter; every theorem below holds for every choice of it. -/
abbrev TRCheck := ℚ → ℚ → ℚ → Bool

/-- A trivial instantiation of `TRCheck` used to evaluate the code on
concrete payloads that never reach the turn-rate comparison. -/
def trNever : TRCheck := fun _ _ _ => false

/-- A candidate decoder: frame descriptor and store flag to score and
updated frame descriptor (the C functions mutate `mm` only under
`if (store)`). -/
abbrev Decoder := ModesMessage → Bool → Int × ModesMessage

/-- Assembles a candidate decoder from its pure scoring pass (`none` encodes
the C early `return 0`, which performs no writes) and its store pass (the
writes the C code performs under `if (store)` before the final return). -/
def mkDecoder (score : ModesMessage → Option Int) (store : ModesMessage → ModesMessage) : Decoder :=
  fun mm st =>
    match score mm with
    | none => (0, mm)
    | some s => (s, if st then store mm else mm)

/-- Scoring pass of decodeEmptyResponse: first byte one of
0x00/0x40/0x50/0x60 and the remaining six bytes zero; score 56. -/
def emptyResponseScore (mm : ModesMessage) : Option Int :=
  let b0 := mm.MB.getD 0 0
  if b0 = (0x00 : Byte) ∨ b0 = (0x40 : Byte) ∨ b0 = (0x50 : Byte) ∨ b0 = (0x60 : Byte) then
    if mm.MB.getD 1 0 ≠ (0 : Byte) ∨ mm.MB.getD 2 0 ≠ (0 : Byte) ∨ mm.MB.getD 3 0 ≠ (0 : Byte) ∨
       mm.MB.getD 4 0 ≠ (0 : Byte) ∨ mm.MB.getD 5 0 ≠ (0 : Byte) ∨ mm.MB.getD 6 0 ≠ (0 : Byte) then
      none
    else some 56
  else none

/-- Store pass of decodeEmptyResponse. -/
def emptyResponseStore (mm : ModesMessage) : ModesMessage :=
  { mm with commb_format := CommBFormat.empty_response }

def decodeEmptyResponse : Decoder := mkDecoder emptyResponseScore emptyResponseStore

/-- Scoring pass of decodeBDS10: first byte 0x10, reserved bits 10..14
zero; score 56. -/
def bds10Score (mm : ModesMessage) : Option Int :=
  if mm.MB.getD 0 0 ≠ (0x10 : Byte) then none
  else if getbits mm.MB 10 14 ≠ 0 then none
  else some 56

/-- Store pass of decodeBDS10. -/
def bds10Store (mm : ModesMessage) : ModesMessage :=
  { mm with commb_format := CommBFormat.datalink_caps }

def decodeBDS10 : Decoder := mkDecoder bds10Score bds10Store

/-- Scoring pass of decodeBDS17: reserved bits 25..56 must be zero, then an
additive weight table over the capability bits. -/
def bds17Score (mm : ModesMessage) : Option Int :=
  let msg := mm.MB
  if getbits msg 25 56 ≠ 0 then none
  else
    let identScore : Int := if getbit msg 7 ≠ 0 then 1 else -2
    let unlikelyScore : Int :=
      (if getbit msg 10 ≠ 0 then (-2 : Int) else 0) +
      (if getbit msg 11 ≠ 0 then (-2 : Int) else 0) +
      (if getbit msg 12 ≠ 0 then (-2 : Int) else 0) +
      (if getbit msg 13 ≠ 0 then (-1 : Int) else 0) +
      (if getbit msg 14 ≠ 0 then (-1 : Int) else 0) +
      (if getbit msg 20 ≠ 0 then (-2 : Int) else 0) +
      (if getbit msg 21 ≠ 0 then (-2 : Int) else 0) +
      (if getbit msg 22 ≠ 0 then (-2 : Int) else 0)
    let esScore : Int :=
      if getbit msg 1 ≠ 0 ∧ getbit msg 2 ≠ 0 ∧ getbit msg 3 ≠ 0 ∧ getbit msg 4 ≠ 0 ∧ getbit msg 5 ≠ 0 then
        5 + (if getbit msg 6 ≠ 0 then (1 : Int) else 0)
      else if getbit msg 1 = 0 ∧ getbit msg 2 = 0 ∧ getbit msg 3 = 0 ∧ getbit msg 4 = 0 ∧
              getbit msg 5 = 0 ∧ getbit msg 6 = 0 then 1
      else if getbit msg 1 = 0 ∧ getbit msg 2 = 0 ∧ getbit msg 3 ≠ 0 ∧ getbit msg 4 ≠ 0 ∧
              getbit msg 5 ≠ 0 then 3
      else -12
    let trackScore : Int :=
      if getbit msg 16 ≠ 0 ∧ getbit msg 24 ≠ 0 then 2 + (if getbit msg 9 ≠ 0 then (1 : Int) else 0)
      else if getbit msg 16 = 0 ∧ getbit msg 24 = 0 ∧ getbit msg 9 = 0 then 1
      else -6
    some (identScore + unlikelyScore + esScore + trackScore)

/-- Store pass of decodeBDS17. -/
def bds17Store (mm : ModesMessage) : ModesMessage :=
  { mm with commb_format := CommBFormat.gicb_caps }

def decodeBDS17 : Decoder := mkDecoder bds17Score bds17Store

/-- A callsign character accepted without invalidating the callsign:
uppercase letter, digit or space (the C per-character test). -/
def goodChar (c : Char) : Prop :=
  ('A' ≤ c ∧ c ≤ 'Z') ∨ ('0' ≤ c ∧ c ≤ '9') ∨ c = ' '

instance : DecidablePred goodChar := fun c => by unfold goodChar; infer_instance

/-- The eight callsign characters of a BDS2,0 payload (bits 9..56 via the
AIS charset). -/
def bds20Chars (msg : List Byte) : List Char :=
  [ais_charset.getD (getbits msg 9 14) '?',
   ais_charset.getD (getbits msg 15 20) '?',
   ais_charset.getD (getbits msg 21 26) '?',
   ais_charset.getD (getbits msg 27 32) '?',
   ais_charset.getD (getbits msg 33 38) '?',
   ais_charset.getD (getbits msg 39 44) '?',
   ais_charset.getD (getbits msg 45 50) '?',
   ais_charset.getD (getbits msg 51 56) '?']

/-- The character loop of decodeBDS20: accumulates the score, clears the
validity on a '@' padding character, and vetoes (`none`) on any other
non-alphanumeric-non-space character. -/
def bds20Loop : List Char → Int → Bool → Option (Int × Bool)
  | [], score, valid => some (score, valid)
  | c :: cs, score, valid =>
    if goodChar c then bds20Loop cs (score + 6) valid
    else if c = '@' then bds20Loop cs score false
    else none

/-- Scoring pass of decodeBDS20: first byte 0x20, then the character loop
starting from base score 8. -/
def bds20Score (mm : ModesMessage) : Option Int :=
  if mm.MB.getD 0 0 ≠ (0x20 : Byte) then none
  else
    match bds20Loop (bds20Chars mm.MB) 8 true with
    | none => none
    | some (s, _) => some s

/-- Store pass of decodeBDS20: always classifies AIRCRAFT_IDENT; exports the
callsign only when no '@' padding character appeared. -/
def bds20Store (mm : ModesMessage) : ModesMessage :=
  let cs := bds20Chars mm.MB
  match bds20Loop cs 8 true with
  | none => { mm with commb_format := CommBFormat.aircraft_ident }
  | some (_, valid) =>
    { mm with
      commb_format := CommBFormat.aircraft_ident,
      callsign := if valid then cs else mm.callsign,
      callsign_valid := if valid then true else mm.callsign_valid }

def decodeBDS20 : Decoder := mkDecoder bds20Score bds20Store

/-- Scoring pass of decodeBDS30: first byte 0x30; score 56. -/
def bds30Score (mm : ModesMessage) : Option Int :=
  if mm.MB.getD 0 0 ≠ (0x30 : Byte) then none
  else some 56

/-- Store pass of decodeBDS30. -/
def bds30Store (mm : ModesMessage) : ModesMessage :=
  { mm with commb_format := CommBFormat.acas_ra }

def decodeBDS30 : Decoder := mkDecoder bds30Score bds30Store

/-- Scoring pass of decodeBDS40 (selected vertical intention): field-wise
plausibility scoring with early vetoes, then consistency penalties. -/
def bds40Score (mm : ModesMessage) : Option Int :=
  let msg := mm.MB
  let mcp_valid := getbit msg 1
  let mcp_raw := getbits msg 2 13
  let fms_valid := getbit msg 14
  let fms_raw := getbits msg 15 26
  let baro_valid := getbit msg 27
  let baro_raw := getbits msg 28 39
  let reserved_1 := getbits msg 40 47
  let mode_valid := getbit msg 48
  let reserved_2 := getbits msg 52 53
  let source_valid := getbit msg 54
  let source_raw := getbits msg 55 56
  if mcp_valid = 0 ∧ fms_valid = 0 ∧ baro_valid = 0 ∧ mode_valid = 0 ∧ source_valid = 0 then none
  else
    let mcp_alt := if mcp_valid ≠ 0 ∧ mcp_raw ≠ 0 then mcp_raw * 16 else 0
    let fms_alt := if fms_valid ≠ 0 ∧ fms_raw ≠ 0 then fms_raw * 16 else 0
    let baro_setting : ℚ := if baro_valid ≠ 0 ∧ baro_raw ≠ 0 then 800 + (baro_raw : ℚ) * (0.1 : ℚ) else 0
    let mcpPart : Option Int :=
      if mcp_valid ≠ 0 ∧ mcp_raw ≠ 0 then
        if 1000 ≤ mcp_alt ∧ mcp_alt ≤ 50000 then some 13 else none
      else if mcp_valid = 0 ∧ mcp_raw = 0 then some 1
      else none
    let fmsPart : Option Int :=
      if fms_valid ≠ 0 ∧ fms_raw ≠ 0 then
        if 1000 ≤ fms_alt ∧ fms_alt ≤ 50000 then some 13 else none
      else if fms_valid = 0 ∧ fms_raw = 0 then some 1
      else none
    let baroPart : Option Int :=
      if baro_valid ≠ 0 ∧ baro_raw ≠ 0 then
        if 900 ≤ baro_setting ∧ baro_setting ≤ 1100 then some 13 else none
      else if baro_valid = 0 ∧ baro_raw = 0 then some 1
      else none
    let modePart : Option Int :=
      if mode_valid ≠ 0 then some 4
      else if mode_valid = 0 ∧ getbits msg 49 51 = 0 then some 1
      else none
    let sourcePart : Option Int :=
      if source_valid ≠ 0 then some 3
      else if source_valid = 0 ∧ source_raw = 0 then some 1
      else none
    match mcpPart, fmsPart, baroPart with
    | some s1, some s2, some s3 =>
      if reserved_1 ≠ 0 then none
      else
        match modePart with
        | some s4 =>
          if reserved_2 ≠ 0 then none
          else
            match sourcePart with
            | some s5 =>
              let score := s1 + s2 + s3 + s4 + s5
              let score := if mcp_valid ≠ 0 ∧ fms_valid ≠ 0 ∧ mcp_alt ≠ fms_alt then score - 4 else score
              let score := if mcp_valid ≠ 0 ∧ ¬(mcp_alt % 500 < 16 ∨ 484 < mcp_alt % 500) then score - 4 else score
              let score := if fms_valid ≠ 0 ∧ ¬(fms_alt % 500 < 16 ∨ 484 < fms_alt % 500) then score - 4 else score
              some score
            | none => none
        | none => none
    | _, _, _ => none

/-- Store pass of decodeBDS40: VERTICAL_INTENT plus the navigation block. -/
def bds40Store (mm : ModesMessage) : ModesMessage :=
  let msg := mm.MB
  let mcp_valid := getbit msg 1
  let mcp_raw := getbits msg 2 13
  let fms_valid := getbit msg 14
  let fms_raw := getbits msg 15 26
  let baro_valid := getbit msg 27
  let baro_raw := getbits msg 28 39
  let mode_valid := getbit msg 48
  let mode_raw := getbits msg 49 51
  let source_valid := getbit msg 54
  let source_raw := getbits msg 55 56
  let mcp_alt := if mcp_valid ≠ 0 ∧ mcp_raw ≠ 0 then mcp_raw * 16 else 0
  let fms_alt := if fms_valid ≠ 0 ∧ fms_raw ≠ 0 then fms_raw * 16 else 0
  let baro_setting : ℚ := if baro_valid ≠ 0 ∧ baro_raw ≠ 0 then 800 + (baro_raw : ℚ) * (0.1 : ℚ) else 0
  { mm with
    commb_format := CommBFormat.vertical_intent,
    nav_mcp_altitude_valid := if mcp_valid ≠ 0 then true else mm.nav_mcp_altitude_valid,
    nav_mcp_altitude := if mcp_valid ≠ 0 then mcp_alt else mm.nav_mcp_altitude,
    nav_fms_altitude_valid := if fms_valid ≠ 0 then true else mm.nav_fms_altitude_valid,
    nav_fms_altitude := if fms_valid ≠ 0 then fms_alt else mm.nav_fms_altitude,
    nav_qnh_valid := if baro_valid ≠ 0 then true else mm.nav_qnh_valid,
    nav_qnh := if baro_valid ≠ 0 then baro_setting else mm.nav_qnh,
    nav_modes_valid := if mode_valid ≠ 0 then true else mm.nav_modes_valid,
    nav_modes := if mode_valid ≠ 0 then
        (if mode_raw &&& 4 ≠ 0 then NAV_MODE_VNAV else 0) |||
        (if mode_raw &&& 2 ≠ 0 then NAV_MODE_ALT_HOLD else 0) |||
        (if mode_raw &&& 1 ≠ 0 then NAV_MODE_APPROACH else 0)
      else mm.nav_modes,
    nav_altitude_source :=
      if source_valid ≠ 0 then
        if source_raw = 0 then NavAltitudeSource.unknown
        else if source_raw = 1 then NavAltitudeSource.aircraft
        else if source_raw = 2 then NavAltitudeSource.mcp
        else if source_raw = 3 then NavAltitudeSource.fms
        else NavAltitudeSource.invalid
      else NavAltitudeSource.invalid }

def decodeBDS40 : Decoder := mkDecoder bds40Score bds40Store

/-- Scoring pass of decodeBDS50 (track and turn report), parameterised by
the abstract turn-rate comparison `tr` (see `TRCheck`).  The ground-speed
versus TAS penalty is embedded exactly as the C computes it: the absolute
difference of the two VALIDITY bits, not of the speeds. -/
def bds50Score (tr : TRCheck) (mm : ModesMessage) : Option Int :=
  let msg := mm.MB
  let roll_valid := getbit msg 1
  let roll_sign := getbit msg 2
  let roll_raw := getbits msg 3 11
  let track_valid := getbit msg 12
  let track_sign := getbit msg 13
  let track_raw := getbits msg 14 23
  let gs_valid := getbit msg 24
  let gs_raw := getbits msg 25 34
  let track_rate_valid := getbit msg 35
  let track_rate_sign := getbit msg 36
  let track_rate_raw := getbits msg 37 45
  let tas_valid := getbit msg 46
  let tas_raw := getbits msg 47 56
  if roll_valid = 0 ∨ track_valid = 0 ∨ gs_valid = 0 ∨ tas_valid = 0 then none
  else
    let roll : ℚ := if roll_valid ≠ 0 then
        (roll_raw : ℚ) * 45 / 256 - (if roll_sign ≠ 0 then 90 else 0)
      else 0
    let track_rate : ℚ := if track_rate_valid ≠ 0 then
        (track_rate_raw : ℚ) * 8 / 256 - (if track_rate_sign ≠ 0 then 16 else 0)
      else 0
    let gs : Nat := if gs_valid ≠ 0 ∧ gs_raw ≠ 0 then gs_raw * 2 else 0
    let tas : Nat := if tas_valid ≠ 0 ∧ tas_raw ≠ 0 then tas_raw * 2 else 0
    let rollPart : Option Int :=
      if roll_valid ≠ 0 then
        if -40 ≤ roll ∧ roll < 40 then some 11 else none
      else if roll_valid = 0 ∧ roll_raw = 0 ∧ roll_sign = 0 then some 1
      else none
    let trackPart : Option Int :=
      if track_valid ≠ 0 then some 12
      else if track_valid = 0 ∧ track_raw = 0 ∧ track_sign = 0 then some 1
      else none
    let gsPart : Option Int :=
      if gs_valid ≠ 0 ∧ gs_raw ≠ 0 then
        if 50 ≤ gs ∧ gs ≤ 700 then some 11 else none
      else if gs_valid = 0 ∧ gs_raw = 0 then some 1
      else none
    let trackRatePart : Option Int :=
      if track_rate_valid ≠ 0 then
        if -10 ≤ track_rate ∧ track_rate ≤ 10 then some 11 else none
      else if track_rate_valid = 0 ∧ track_rate_raw = 0 ∧ track_rate_sign = 0 then some 1
      else none
    let tasPart : Option Int :=
      if tas_valid ≠ 0 ∧ tas_raw ≠ 0 then
        if 50 ≤ tas ∧ tas ≤ 700 then some 11 else none
      else if tas_valid = 0 ∧ tas_raw = 0 then some 1
      else none
    match rollPart, trackPart, gsPart, trackRatePart, tasPart with
    | some a, some b, some c, some d, some e =>
      let score := a + b + c + d + e
      let score := if gs_valid ≠ 0 ∧ tas_valid ≠ 0 then
          if 150 < ((gs_valid : Int) - (tas_valid : Int)).natAbs then score - 6 else score
        else score
      let score := if roll_valid ≠ 0 ∧ tas_valid ≠ 0 ∧ 0 < tas ∧ track_rate_valid ≠ 0 then
          if tr roll (tas : ℚ) track_rate then score - 6 else score
        else score
      some score
    | _, _, _, _, _ => none

/-- Store pass of decodeBDS50: TRACK_TURN plus roll, ground track heading,
ground speed (three shadow fields), track rate and TAS. -/
def bds50Store (mm : ModesMessage) : ModesMessage :=
  let msg := mm.MB
  let roll_valid := getbit msg 1
  let roll_sign := getbit msg 2
  let roll_raw := getbits msg 3 11
  let track_valid := getbit msg 12
  let track_sign := getbit msg 13
  let track_raw := getbits msg 14 23
  let gs_valid := getbit msg 24
  let gs_raw := getbits msg 25 34
  let track_rate_valid := getbit msg 35
  let track_rate_sign := getbit msg 36
  let track_rate_raw := getbits msg 37 45
  let tas_valid := getbit msg 46
  let tas_raw := getbits msg 47 56
  let roll : ℚ := if roll_valid ≠ 0 then
      (roll_raw : ℚ) * 45 / 256 - (if roll_sign ≠ 0 then 90 else 0)
    else 0
  let track : ℚ := if track_valid ≠ 0 then
      (track_raw : ℚ) * 90 / 512 + (if track_sign ≠ 0 then 180 else 0)
    else 0
  let track_rate : ℚ := if track_rate_valid ≠ 0 then
      (track_rate_raw : ℚ) * 8 / 256 - (if track_rate_sign ≠ 0 then 16 else 0)
    else 0
  let gs : Nat := if gs_valid ≠ 0 ∧ gs_raw ≠ 0 then gs_raw * 2 else 0
  let tas : Nat := if tas_valid ≠ 0 ∧ tas_raw ≠ 0 then tas_raw * 2 else 0
  { mm with
    commb_format := CommBFormat.track_turn,
    roll_valid := if roll_valid ≠ 0 then true else mm.roll_valid,
    roll := if roll_valid ≠ 0 then roll else mm.roll,
    heading_valid := if track_valid ≠ 0 then true else mm.heading_valid,
    heading := if track_valid ≠ 0 then track else mm.heading,
    heading_type := if track_valid ≠ 0 then HeadingType.ground_track else mm.heading_type,
    gs_valid := if gs_valid ≠ 0 then true else mm.gs_valid,
    gs_v0 := if gs_valid ≠ 0 then (gs : ℚ) else mm.gs_v0,
    gs_v2 := if gs_valid ≠ 0 then (gs : ℚ) else mm.gs_v2,
    gs_selected := if gs_valid ≠ 0 then (gs : ℚ) else mm.gs_selected,
    track_rate_valid := if track_rate_valid ≠ 0 then true else mm.track_rate_valid,
    track_rate := if track_rate_valid ≠ 0 then track_rate else mm.track_rate,
    tas_valid := if tas_valid ≠ 0 then true else mm.tas_valid,
    tas := if tas_valid ≠ 0 then tas else mm.tas }

def decodeBDS50 (tr : TRCheck) : Decoder := mkDecoder (bds50Score tr) bds50Store

/-- Scoring pass of decodeBDS60 (heading and speed report). -/
def bds60Score (mm : ModesMessage) : Option Int :=
  let msg := mm.MB
  let heading_valid := getbit msg 1
  let heading_sign := getbit msg 2
  let heading_raw := getbits msg 3 12
  let ias_valid := getbit msg 13
  let ias_raw := getbits msg 14 23
  let mach_valid := getbit msg 24
  let mach_raw := getbits msg 25 34
  let baro_rate_valid := getbit msg 35
  let baro_rate_sign := getbit msg 36
  let baro_rate_raw := getbits msg 37 45
  let inertial_rate_valid := getbit msg 46
  let inertial_rate_sign := getbit msg 47
  let inertial_rate_raw := getbits msg 48 56
  if heading_valid = 0 ∨ ias_valid = 0 ∨ mach_valid = 0 ∨
     (baro_rate_valid = 0 ∧ inertial_rate_valid = 0) then none
  else
    let mach : ℚ := if mach_valid ≠ 0 ∧ mach_raw ≠ 0 then (mach_raw : ℚ) * (2.048 : ℚ) / 512 else 0
    let baro_rate : Int := if baro_rate_valid ≠ 0 then
        (baro_rate_raw : Int) * 32 - (if baro_rate_sign ≠ 0 then 16384 else 0)
      else 0
    let inertial_rate : Int := if inertial_rate_valid ≠ 0 then
        (inertial_rate_raw : Int) * 32 - (if inertial_rate_sign ≠ 0 then 16384 else 0)
      else 0
    let headingPart : Option Int :=
      if heading_valid ≠ 0 then some 12
      else if heading_valid = 0 ∧ heading_raw = 0 ∧ heading_sign = 0 then some 1
      else none
    let iasPart : Option Int :=
      if ias_valid ≠ 0 ∧ ias_raw ≠ 0 then
        if 50 ≤ ias_raw ∧ ias_raw ≤ 700 then some 11 else none
      else if ias_valid = 0 ∧ ias_raw = 0 then some 1
      else none
    let machPart : Option Int :=
      if mach_valid ≠ 0 ∧ mach_raw ≠ 0 then
        if (0.1 : ℚ) ≤ mach ∧ mach ≤ (0.9 : ℚ) then some 11 else none
      else if mach_valid = 0 ∧ mach_raw = 0 then some 1
      else none
    let baroRatePart : Option Int :=
      if baro_rate_valid ≠ 0 then
        if -6000 ≤ baro_rate ∧ baro_rate ≤ 6000 then some 11 else none
      else if baro_rate_valid = 0 ∧ baro_rate_raw = 0 then some 1
      else none
    let inertialRatePart : Option Int :=
      if inertial_rate_valid ≠ 0 then
        if -6000 ≤ inertial_rate ∧ inertial_rate ≤ 6000 then some 11 else none
      else if inertial_rate_valid = 0 ∧ inertial_rate_raw = 0 then some 1
      else none
    match headingPart, iasPart, machPart, baroRatePart, inertialRatePart with
    | some a, some b, some c, some d, some e =>
      let score := a + b + c + d + e
      let score := if baro_rate_valid ≠ 0 ∧ inertial_rate_valid ≠ 0 then
          if 2000 < (baro_rate - inertial_rate).natAbs then score - 12 else score
        else score
      some score
    | _, _, _, _, _ => none

/-- Store pass of decodeBDS60: HEADING_SPEED plus magnetic heading, IAS,
Mach, barometric rate, and the inertial rate exported as geometric rate. -/
def bds60Store (mm : ModesMessage) : ModesMessage :=
  let msg := mm.MB
  let heading_valid := getbit msg 1
  let heading_sign := getbit msg 2
  let heading_raw := getbits msg 3 12
  let ias_valid := getbit msg 13
  let ias_raw := getbits msg 14 23
  let mach_valid := getbit msg 24
  let mach_raw := getbits msg 25 34
  let baro_rate_valid := getbit msg 35
  let baro_rate_sign := getbit msg 36
  let baro_rate_raw := getbits msg 37 45
  let inertial_rate_valid := getbit msg 46
  let inertial_rate_sign := getbit msg 47
  let inertial_rate_raw := getbits msg 48 56
  let heading : ℚ := if heading_valid ≠ 0 then
      (heading_raw : ℚ) * 90 / 512 + (if heading_sign ≠ 0 then 180 else 0)
    else 0
  let ias : Nat := if ias_valid ≠ 0 ∧ ias_raw ≠ 0 then ias_raw else 0
  let mach : ℚ := if mach_valid ≠ 0 ∧ mach_raw ≠ 0 then (mach_raw : ℚ) * (2.048 : ℚ) / 512 else 0
  let baro_rate : Int := if baro_rate_valid ≠ 0 then
      (baro_rate_raw : Int) * 32 - (if baro_rate_sign ≠ 0 then 16384 else 0)
    else 0
  let inertial_rate : Int := if inertial_rate_valid ≠ 0 then
      (inertial_rate_raw : Int) * 32 - (if inertial_rate_sign ≠ 0 then 16384 else 0)
    else 0
  { mm with
    commb_format := CommBFormat.heading_speed,
    heading_valid := if heading_valid ≠ 0 then true else mm.heading_valid,
    heading := if heading_valid ≠ 0 then heading else mm.heading,
    heading_type := if heading_valid ≠ 0 then HeadingType.magnetic else mm.heading_type,
    ias_valid := if ias_valid ≠ 0 then true else mm.ias_valid,
    ias := if ias_valid ≠ 0 then ias else mm.ias,
    mach_valid := if mach_valid ≠ 0 then true else mm.mach_valid,
    mach := if mach_valid ≠ 0 then mach else mm.mach,
    baro_rate_valid := if baro_rate_valid ≠ 0 then true else mm.baro_rate_valid,
    baro_rate := if baro_rate_valid ≠ 0 then baro_rate else mm.baro_rate,
    geom_rate_valid := if inertial_rate_valid ≠ 0 then true else mm.geom_rate_valid,
    geom_rate := if inertial_rate_valid ≠ 0 then inertial_rate else mm.geom_rate }

def decodeBDS60 : Decoder := mkDecoder bds60Score bds60Store

/-- Scoring pass of decodeBDS44 (meteorological routine air report), with
the empirically corrected SAT layout (status bit 24, sign bit 25, raw bits
26..34) and the DME/DME-source clamp to score 1. -/
def bds44Score (mm : ModesMessage) : Option Int :=
  let msg := mm.MB
  let source := getbits msg 1 4
  let wind_valid := getbit msg 5
  let windspeed_raw := getbits msg 6 14
  let sat_valid := getbit msg 24
  let sat_sign := getbit msg 25
  let sat_raw := getbits msg 26 34
  let asp_valid := getbit msg 35
  let asp_raw := getbits msg 36 46
  let turbulence_valid := getbit msg 47
  let turbulence_raw := getbits msg 48 49
  let humidity_valid := getbit msg 50
  let humidity_raw := getbits msg 51 56
  if source = MRAR_SOURCE_INVALID ∨ MRAR_SOURCE_RESERVED ≤ source then none
  else if wind_valid = 0 ∨ sat_valid = 0 then none
  else if asp_valid = 0 ∧ asp_raw ≠ 0 then none
  else if turbulence_valid = 0 ∧ turbulence_raw ≠ 0 then none
  else if humidity_valid = 0 ∧ humidity_raw ≠ 0 then none
  else
    let sat : ℚ := if sat_valid ≠ 0 then
        (sat_raw : ℚ) * (0.25 : ℚ) - (if sat_sign ≠ 0 then 128 else 0)
      else 0
    let windPart : Option Int :=
      if wind_valid ≠ 0 then
        if windspeed_raw = 0 then some 2
        else if (windspeed_raw : ℚ) ≤ 250 then some 19
        else none
      else some 1
    let satPart : Option Int :=
      if sat_valid ≠ 0 then
        if sat = 0 then some 2
        else if -80 ≤ sat ∧ sat ≤ 60 then some 11
        else none
      else some 1
    let aspPart : Option Int :=
      if asp_valid ≠ 0 then
        if 25 ≤ (asp_raw : ℚ) ∧ (asp_raw : ℚ) ≤ 1100 then some 12 else none
      else some 1
    let turbPart : Option Int := if turbulence_valid ≠ 0 then some 3 else some 1
    let humPart : Option Int := if humidity_valid ≠ 0 then some 7 else some 1
    match windPart, satPart, aspPart, turbPart, humPart with
    | some w, some s, some a, some t, some h =>
      let score := w + s + a + t + h
      let score := if source = MRAR_SOURCE_DMEDME ∧ wind_valid ≠ 0 ∧ sat_valid ≠ 0 ∧ 0 < score then
          1
        else score
      some score
    | _, _, _, _, _ => none

/-- Store pass of decodeBDS44: MRAR plus source, wind, temperature,
pressure, turbulence and humidity. -/
def bds44Store (mm : ModesMessage) : ModesMessage :=
  let msg := mm.MB
  let source := getbits msg 1 4
  let wind_valid := getbit msg 5
  let windspeed_raw := getbits msg 6 14
  let winddir_raw := getbits msg 15 23
  let sat_valid := getbit msg 24
  let sat_sign := getbit msg 25
  let sat_raw := getbits msg 26 34
  let asp_valid := getbit msg 35
  let asp_raw := getbits msg 36 46
  let turbulence_valid := getbit msg 47
  let turbulence_raw := getbits msg 48 49
  let humidity_valid := getbit msg 50
  let humidity_raw := getbits msg 51 56
  let wind_speed : ℚ := if wind_valid ≠ 0 then (windspeed_raw : ℚ) else 0
  let wind_dir : ℚ := if wind_valid ≠ 0 then (winddir_raw : ℚ) * (180 / 256 : ℚ) else 0
  let sat : ℚ := if sat_valid ≠ 0 then
      (sat_raw : ℚ) * (0.25 : ℚ) - (if sat_sign ≠ 0 then 128 else 0)
    else 0
  { mm with
    commb_format := CommBFormat.mrar,
    mrar_source_valid := true,
    mrar_source := source,
    wind_valid := if wind_valid ≠ 0 then true else mm.wind_valid,
    wind_speed := if wind_valid ≠ 0 then wind_speed else mm.wind_speed,
    wind_dir := if wind_valid ≠ 0 then wind_dir else mm.wind_dir,
    temperature_valid := if sat_valid ≠ 0 then true else mm.temperature_valid,
    temperature := if sat_valid ≠ 0 then sat else mm.temperature,
    pressure_valid := if asp_valid ≠ 0 then true else mm.pressure_valid,
    pressure := if asp_valid ≠ 0 then (asp_raw : ℚ) else mm.pressure,
    turbulence_valid := if turbulence_valid ≠ 0 then true else mm.turbulence_valid,
    turbulence := if turbulence_valid ≠ 0 then turbulence_raw else mm.turbulence,
    humidity_valid := if humidity_valid ≠ 0 then true else mm.humidity_valid,
    humidity := if humidity_valid ≠ 0 then (humidity_raw : ℚ) * (100 / 64 : ℚ) else mm.humidity }

def decodeBDS44 : Decoder := mkDecoder bds44Score bds44Store

/-- Scoring pass of decodeBDS05 (defensive recogniser for extended-squitter
airborne position queried via Comm-B): DF20 only, typecode 9..18, T bit
clear, nonzero AC12 matching the frame AC after inserting a zero M bit,
nonzero latitude and longitude; score 100. -/
def bds05Score (mm : ModesMessage) : Option Int :=
  if mm.msgtype ≠ 20 then none
  else
    let msg := mm.MB
    let typecode := getbits msg 1 5
    if typecode < 9 ∨ 18 < typecode then none
    else if getbit msg 21 ≠ 0 then none
    else
      let ac12 := getbits msg 9 20
      if ac12 = 0 then none
      else
        let ac13 := ((ac12 &&& 0x0FC0) <<< 1) ||| (ac12 &&& 0x003F)
        if mm.AC ≠ ac13 then none
        else
          let lat := getbits msg 23 39
          let lon := getbits msg 40 56
          if lat = 0 ∨ lon = 0 then none
          else some 100

/-- Store pass of decodeBDS05: only the AIRBORNE_POSITION tag, no position
is exported. -/
def bds05Store (mm : ModesMessage) : ModesMessage :=
  { mm with commb_format := CommBFormat.airborne_position }

def decodeBDS05 : Decoder := mkDecoder bds05Score bds05Store

/-- The candidate table, in the order of the C array `comm_b_decoders`. -/
def comm_b_decoders (tr : TRCheck) : List Decoder :=
  [decodeEmptyResponse, decodeBDS10, decodeBDS20, decodeBDS30, decodeBDS17,
   decodeBDS40, decodeBDS50 tr, decodeBDS60, decodeBDS44, decodeBDS05]

/-- One iteration of the classifier loop of decodeCommB: track the best
score, the best decoder, and the ambiguity flag. -/
def classifyStep (mm : ModesMessage) (st : Int × Option Decoder × Bool) (d : Decoder) :
    Int × Option Decoder × Bool :=
  let score := (d mm false).1
  if st.1 < score then (score, some d, false)
  else if score = st.1 then (st.1, st.2.1, true)
  else st

/-- The classifier loop state after scoring the candidates `ds`. -/
def classifyFold (mm : ModesMessage) (ds : List Decoder) : Int × Option Decoder × Bool :=
  ds.foldl (classifyStep mm) (0, none, false)

/-- decodeCommB: gate on DR/UM/correctedbits, score every candidate, then
report UNKNOWN, AMBIGUOUS, or re-run the unique best candidate in store
mode. -/
def decodeCommB (tr : TRCheck) (mm : ModesMessage) : ModesMessage :=
  if mm.DR ≠ 0 ∨ mm.UM ≠ 0 ∨ 0 < mm.correctedbits then
    { mm with commb_format := CommBFormat.not_decoded }
  else
    let st := classifyFold mm (comm_b_decoders tr)
    match st.2.1 with
    | none => { mm with commb_format := CommBFormat.unknown }
    | some best => if st.2.2 then { mm with commb_format := CommBFormat.ambiguous } else (best mm true).2

/-- The scores of all candidates on `mm` (scoring mode). -/
def scoreList (mm : ModesMessage) (ds : List Decoder) : List Int :=
  ds.map fun d => (d mm false).1

/-- The running maximum the classifier loop tracks: the largest candidate
score, floored at the initial value 0. -/
def bestScore (mm : ModesMessage) (ds : List Decoder) : Int :=
  (scoreList mm ds).foldl max 0

/-- The scores of the ten candidates of decodeCommB on `mm`. -/
def commbScores (tr : TRCheck) (mm : ModesMessage) : List Int :=
  scoreList mm (comm_b_decoders tr)

/-- The best candidate score of decodeCommB on `mm`, floored at 0. -/
def bestCommBScore (tr : TRCheck) (mm : ModesMessage) : Int :=
  bestScore mm (comm_b_decoders tr)

/-- Each candidate decoder paired with the `commb_format` tag its store
pass assigns. -/
def comm_b_decoder_tags (tr : TRCheck) : List (Decoder × CommBFormat) :=
  [(decodeEmptyResponse, CommBFormat.empty_response),
   (decodeBDS10, CommBFormat.datalink_caps),
   (decodeBDS20, CommBFormat.aircraft_ident),
   (decodeBDS30, CommBFormat.acas_ra),
   (decodeBDS17, CommBFormat.gicb_caps),
   (decodeBDS40, CommBFormat.vertical_intent),
   (decodeBDS50 tr, CommBFormat.track_turn),
   (decodeBDS60, CommBFormat.heading_speed),
   (decodeBDS44, CommBFormat.mrar),
   (decodeBDS05, CommBFormat.airborne_position)]

/-- A frame descriptor with neutral field values, used to evaluate the
decoders on concrete payloads. -/
def testFrame (mb : List Byte) : ModesMessage where
  msgtype := 21
  MB := mb
  DR := 0
  UM := 0
  correctedbits := 0
  AC := 0
  commb_format := CommBFormat.unknown
  callsign := []
  callsign_valid := false
  nav_mcp_altitude_valid := false
  nav_mcp_altitude := 0
  nav_fms_altitude_valid := false
  nav_fms_altitude := 0
  nav_qnh_valid := false
  nav_qnh := 0
  nav_modes_valid := false
  nav_modes := 0
  nav_altitude_source := NavAltitudeSource.unknown
  roll_valid := false
  roll := 0
  heading_valid := false
  heading := 0
  heading_type := HeadingType.magnetic
  gs_valid := false
  gs_v0 := 0
  gs_v2 := 0
  gs_selected := 0
  track_rate_valid := false
  track_rate := 0
  tas_valid := false
  tas := 0
  ias_valid := false
  ias := 0
  mach_valid := false
  mach := 0
  baro_rate_valid := false
  baro_rate := 0
  geom_rate_valid := false
  geom_rate := 0
  mrar_source_valid := false
  mrar_source := 0
  wind_valid := false
  wind_speed := 0
  wind_dir := 0
  temperature_valid := false
  temperature := 0
  pressure_valid := false
  pressure := 0
  turbulence_valid := false
  turbulence := 0
  humidity_valid := false
  humidity := 0

theorem mkDecoder_fst (f : ModesMessage → Option Int) (g : ModesMessage → ModesMessage)
    (mm : ModesMessage) (b : Bool) : (mkDecoder f g mm b).1 = (f mm).getD 0 := by
  cases h : f mm <;> simp [mkDecoder, h]

theorem mkDecoder_fst_store_indep (f : ModesMessage → Option Int) (g : ModesMessage → ModesMessage)
    (mm : ModesMessage) (b b' : Bool) : (mkDecoder f g mm b).1 = (mkDecoder f g mm b').1 := by
  rw [mkDecoder_fst, mkDecoder_fst]

theorem mkDecoder_snd_false (f : ModesMessage → Option Int) (g : ModesMessage → ModesMessage)
    (mm : ModesMessage) : (mkDecoder f g mm false).2 = mm := by
  cases h : f mm <;> simp [mkDecoder, h]

theorem mkDecoder_pos (f : ModesMessage → Option Int) (g : ModesMessage → ModesMessage)
    (mm : ModesMessage) (b : Bool) (h : 0 < (mkDecoder f g mm b).1) :
    ∃ s, f mm = some s ∧ 0 < s := by
  cases hf : f mm with
  | none => rw [mkDecoder_fst, hf] at h; exact absurd h (by simp)
  | some s => refine ⟨s, rfl, ?_⟩; rwa [mkDecoder_fst, hf] at h

theorem mkDecoder_snd_true (f : ModesMessage → Option Int) (g : ModesMessage → ModesMessage)
    (mm : ModesMessage) (s : Int) (h : f mm = some s) : (mkDecoder f g mm true).2 = g mm := by
  simp [mkDecoder, h]

theorem foldl_max_init_le (l : List Int) (a : Int) : a ≤ l.foldl max a := by
  induction l generalizing a with
  | nil => simp
  | cons x t ih => exact le_trans (le_max_left a x) (ih (max a x))

theorem mem_le_foldl_max (l : List Int) (x : Int) (hx : x ∈ l) : ∀ a, x ≤ l.foldl max a := by
  induction l with
  | nil => cases hx
  | cons y t ih =>
    intro a
    simp only [List.foldl_cons]
    rcases List.mem_cons.mp hx with rfl | hx'
    · exact le_trans (le_max_right a x) (foldl_max_init_le t (max a x))
    · exact ih hx' (max a y)

theorem foldl_max_mem (l : List Int) : ∀ a, l.foldl max a = a ∨ l.foldl max a ∈ l := by
  induction l with
  | nil => intro a; left; rfl
  | cons y t ih =>
    intro a
    simp only [List.foldl_cons]
    rcases ih (max a y) with h | h
    · rw [h]
      rcases max_choice a y with h' | h'
      · left; exact h'
      · right; rw [h']; exact List.mem_cons_self y t
    · right; exact List.mem_cons_of_mem y h

theorem scoreList_append (mm : ModesMessage) (ds : List Decoder) (d : Decoder) :
    scoreList mm (ds ++ [d]) = scoreList mm ds ++ [(d mm false).1] := by
  simp [scoreList]

theorem bestScore_append (mm : ModesMessage) (ds : List Decoder) (d : Decoder) :
    bestScore mm (ds ++ [d]) = max (bestScore mm ds) ((d mm false).1) := by
  simp [bestScore, scoreList_append, List.foldl_append]

theorem bestScore_nonneg (mm : ModesMessage) (ds : List Decoder) : 0 ≤ bestScore mm ds :=
  foldl_max_init_le _ 0

theorem le_bestScore (mm : ModesMessage) (ds : List Decoder) (x : Int)
    (hx : x ∈ scoreList mm ds) : x ≤ bestScore mm ds :=
  mem_le_foldl_max _ x hx 0

theorem bestScore_mem (mm : ModesMessage) (ds : List Decoder) (h : 0 < bestScore mm ds) :
    bestScore mm ds ∈ scoreList mm ds := by
  rcases foldl_max_mem (scoreList mm ds) 0 with h' | h'
  · exact absurd (show bestScore mm ds = 0 from h') (by omega)
  · exact h'

theorem classifyFold_append (mm : ModesMessage) (ds : List Decoder) (d : Decoder) :
    classifyFold mm (ds ++ [d]) = classifyStep mm (classifyFold mm ds) d := by
  simp [classifyFold, List.foldl_append]

/-- Invariant of the classifier loop: the tracked best is the maximum of
the scores floored at 0; the best decoder is absent iff that maximum is 0;
any tracked decoder is a candidate achieving the maximum; once the maximum
is positive, the ambiguity flag is set iff the maximum is achieved at least
twice. -/
theorem classifyFold_spec (mm : ModesMessage) (ds : List Decoder) :
    (classifyFold mm ds).1 = bestScore mm ds ∧
    ((classifyFold mm ds).2.1 = none ↔ bestScore mm ds = 0) ∧
    (∀ d, (classifyFold mm ds).2.1 = some d → d ∈ ds ∧ (d mm false).1 = bestScore mm ds) ∧
    (0 < bestScore mm ds →
      ((classifyFold mm ds).2.2 = true ↔ 2 ≤ (scoreList mm ds).count (bestScore mm ds))) := by
  induction ds using List.reverseRecOn with
  | nil => simp [classifyFold, bestScore, scoreList]
  | append_singleton ds d ih =>
    obtain ⟨ih1, ih2, ih3, ih4⟩ := ih
    have hb0 : 0 ≤ bestScore mm ds := bestScore_nonneg mm ds
    rw [classifyFold_append]
    rcases lt_trichotomy (bestScore mm ds) ((d mm false).1) with hlt | heq | hgt
    · have hstep : classifyStep mm (classifyFold mm ds) d = ((d mm false).1, some d, false) := by
        simp [classifyStep, ih1, hlt]
      have hmax : bestScore mm (ds ++ [d]) = (d mm false).1 := by
        rw [bestScore_append]; exact max_eq_right hlt.le
      have hnotmem : (d mm false).1 ∉ scoreList mm ds := by
        intro hmem
        exact absurd (le_bestScore mm ds _ hmem) (not_le.mpr hlt)
      refine ⟨by rw [hstep, hmax], ?_, ?_, ?_⟩
      · rw [hstep, hmax]
        simp only [reduceCtorEq, false_iff]
        omega
      · intro d' hd'
        rw [hstep] at hd'
        simp only [Option.some.injEq] at hd'
        subst hd'
        exact ⟨List.mem_append_right ds (List.mem_singleton.mpr rfl), hmax.symm⟩
      · intro _
        rw [hstep, hmax, scoreList_append, List.count_append]
        have h0 : (scoreList mm ds).count ((d mm false).1) = 0 :=
          List.count_eq_zero.mpr hnotmem
        simp [h0, List.count_singleton]
    · have hstep : classifyStep mm (classifyFold mm ds) d =
          (bestScore mm ds, (classifyFold mm ds).2.1, true) := by
        simp [classifyStep, ih1, heq.symm, lt_irrefl]
      have hmax : bestScore mm (ds ++ [d]) = bestScore mm ds := by
        rw [bestScore_append, ← heq, max_self]
      refine ⟨by rw [hstep, hmax], ?_, ?_, ?_⟩
      · rw [hstep, hmax]; exact ih2
      · intro d' hd'
        rw [hstep] at hd'
        obtain ⟨hmem, hsc⟩ := ih3 d' hd'
        exact ⟨List.mem_append_left _ hmem, by rw [hmax]; exact hsc⟩
      · intro hpos
        rw [hmax] at hpos
        rw [hstep, hmax, scoreList_append, List.count_append]
        have h1 : 1 ≤ (scoreList mm ds).count (bestScore mm ds) :=
          List.count_pos_iff.mpr (bestScore_mem mm ds hpos)
        have h2 : List.count (bestScore mm ds) [(d mm false).1] = 1 := by
          rw [← heq]; simp [List.count_singleton]
        simp only [true_iff]
        omega
    · have hstep : classifyStep mm (classifyFold mm ds) d = classifyFold mm ds := by
        simp only [classifyStep, ih1]
        rw [if_neg (by omega), if_neg (by omega)]
      have hmax : bestScore mm (ds ++ [d]) = bestScore mm ds := by
        rw [bestScore_append]; exact max_eq_left hgt.le
      refine ⟨by rw [hstep, hmax]; exact ih1, ?_, ?_, ?_⟩
      · rw [hstep, hmax]; exact ih2
      · intro d' hd'
        rw [hstep] at hd'
        obtain ⟨hmem, hsc⟩ := ih3 d' hd'
        exact ⟨List.mem_append_left _ hmem, by rw [hmax]; exact hsc⟩
      · intro hpos
        rw [hmax] at hpos
        rw [hstep, hmax, scoreList_append, List.count_append]
        have h2 : List.count (bestScore mm ds) [(d mm false).1] = 0 := by
          refine List.count_eq_zero.mpr ?_
          simp only [List.mem_singleton]
          omega
        rw [h2]
        simpa using ih4 hpos

theorem decodeCommB_unknown (tr : TRCheck) (mm : ModesMessage)
    (hgate : ¬(mm.DR ≠ 0 ∨ mm.UM ≠ 0 ∨ 0 < mm.correctedbits))
    (h : ∀ s ∈ commbScores tr mm, s ≤ 0) :
    decodeCommB tr mm = { mm with commb_format := CommBFormat.unknown } := by
  obtain ⟨_, h2, _, _⟩ := classifyFold_spec mm (comm_b_decoders tr)
  have hb : bestScore mm (comm_b_decoders tr) = 0 := by
    have hle : bestScore mm (comm_b_decoders tr) ≤ 0 := by
      rcases foldl_max_mem (scoreList mm (comm_b_decoders tr)) 0 with h' | h'
      · exact le_of_eq h'
      · exact h _ h'
    have := bestScore_nonneg mm (comm_b_decoders tr)
    omega
  have hnone : (classifyFold mm (comm_b_decoders tr)).2.1 = none := h2.mpr hb
  simp only [decodeCommB, if_neg hgate, hnone]

theorem decodeCommB_ambiguous (tr : TRCheck) (mm : ModesMessage)
    (hgate : ¬(mm.DR ≠ 0 ∨ mm.UM ≠ 0 ∨ 0 < mm.correctedbits))
    (hpos : 0 < bestCommBScore tr mm)
    (hcnt : 2 ≤ (commbScores tr mm).count (bestCommBScore tr mm)) :
    decodeCommB tr mm = { mm with commb_format := CommBFormat.ambiguous } := by
  obtain ⟨_, h2, _, h4⟩ := classifyFold_spec mm (comm_b_decoders tr)
  cases hd : (classifyFold mm (comm_b_decoders tr)).2.1 with
  | none =>
    have : bestScore mm (comm_b_decoders tr) = 0 := h2.mp hd
    exact absurd hpos (by rw [bestCommBScore, this]; omega)
  | some d =>
    have hamb : (classifyFold mm (comm_b_decoders tr)).2.2 = true := (h4 hpos).mpr hcnt
    simp only [decodeCommB, if_neg hgate, hd, hamb, if_true]

theorem decodeCommB_winner (tr : TRCheck) (mm : ModesMessage)
    (hgate : ¬(mm.DR ≠ 0 ∨ mm.UM ≠ 0 ∨ 0 < mm.correctedbits))
    (hpos : 0 < bestCommBScore tr mm)
    (hcnt : (commbScores tr mm).count (bestCommBScore tr mm) = 1) :
    ∃ d ∈ comm_b_decoders tr, (d mm false).1 = bestCommBScore tr mm ∧
      decodeCommB tr mm = (d mm true).2 := by
  have hpos' : 0 < bestScore mm (comm_b_decoders tr) := hpos
  have hcnt' : (scoreList mm (comm_b_decoders tr)).count (bestScore mm (comm_b_decoders tr)) = 1 :=
    hcnt
  obtain ⟨_, h2, h3, h4⟩ := classifyFold_spec mm (comm_b_decoders tr)
  cases hd : (classifyFold mm (comm_b_decoders tr)).2.1 with
  | none =>
    have : bestScore mm (comm_b_decoders tr) = 0 := h2.mp hd
    omega
  | some d =>
    obtain ⟨hmem, hsc⟩ := h3 d hd
    have hamb : (classifyFold mm (comm_b_decoders tr)).2.2 = false := by
      cases hb : (classifyFold mm (comm_b_decoders tr)).2.2 with
      | false => rfl
      | true =>
        have := (h4 hpos').mp hb
        omega
    refine ⟨d, hmem, hsc, ?_⟩
    simp only [decodeCommB, if_neg hgate, hd, hamb, Bool.false_eq_true, if_false]

/-- Each candidate, once it has scored positively, has a tag in the
candidate/tag table that its store pass assigns to `commb_format`. -/
theorem decoder_tag_of_mem (tr : TRCheck) (d : Decoder) (hd : d ∈ comm_b_decoders tr)
    (mm : ModesMessage) (hpos : 0 < (d mm false).1) :
    ∃ t, (d, t) ∈ comm_b_decoder_tags tr ∧ ((d mm true).2).commb_format = t := by
  have store_of_pos : ∀ (f : ModesMessage → Option Int) (g : ModesMessage → ModesMessage),
      0 < (mkDecoder f g mm false).1 → (mkDecoder f g mm true).2 = g mm := by
    intro f g hp
    obtain ⟨s, hs, _⟩ := mkDecoder_pos f g mm false hp
    exact mkDecoder_snd_true f g mm s hs
  simp only [comm_b_decoders, List.mem_cons, List.not_mem_nil, or_false] at hd
  rcases hd with rfl | rfl | rfl | rfl | rfl | rfl | rfl | rfl | rfl | rfl
  · refine ⟨CommBFormat.empty_response, by simp [comm_b_decoder_tags], ?_⟩
    simp only [decodeEmptyResponse] at hpos ⊢
    rw [store_of_pos _ _ hpos]; rfl
  · refine ⟨CommBFormat.datalink_caps, by simp [comm_b_decoder_tags], ?_⟩
    simp only [decodeBDS10] at hpos ⊢
    rw [store_of_pos _ _ hpos]; rfl
  · refine ⟨CommBFormat.aircraft_ident, by simp [comm_b_decoder_tags], ?_⟩
    simp only [decodeBDS20] at hpos ⊢
    rw [store_of_pos _ _ hpos]
    simp only [bds20Store]
    split <;> rfl
  · refine ⟨CommBFormat.acas_ra, by simp [comm_b_decoder_tags], ?_⟩
    simp only [decodeBDS30] at hpos ⊢
    rw [store_of_pos _ _ hpos]; rfl
  · refine ⟨CommBFormat.gicb_caps, by simp [comm_b_decoder_tags], ?_⟩
    simp only [decodeBDS17] at hpos ⊢
    rw [store_of_pos _ _ hpos]; rfl
  · refine ⟨CommBFormat.vertical_intent, by simp [comm_b_decoder_tags], ?_⟩
    simp only [decodeBDS40] at hpos ⊢
    rw [store_of_pos _ _ hpos]; rfl
  · refine ⟨CommBFormat.track_turn, by simp [comm_b_decoder_tags], ?_⟩
    simp only [decodeBDS50] at hpos ⊢
    rw [store_of_pos _ _ hpos]; rfl
  · refine ⟨CommBFormat.heading_speed, by simp [comm_b_decoder_tags], ?_⟩
    simp only [decodeBDS60] at hpos ⊢
    rw [store_of_pos _ _ hpos]; rfl
  · refine ⟨CommBFormat.mrar, by simp [comm_b_decoder_tags], ?_⟩
    simp only [decodeBDS44] at hpos ⊢
    rw [store_of_pos _ _ hpos]; rfl
  · refine ⟨CommBFormat.airborne_position, by simp [comm_b_decoder_tags], ?_⟩
    simp only [decodeBDS05] at hpos ⊢
    rw [store_of_pos _ _ hpos]; rfl

/-- The winner case packaged with its tag. -/
theorem decodeCommB_winner_tag (tr : TRCheck) (mm : ModesMessage)
    (hgate : ¬(mm.DR ≠ 0 ∨ mm.UM ≠ 0 ∨ 0 < mm.correctedbits))
    (hpos : 0 < bestCommBScore tr mm)
    (hcnt : (commbScores tr mm).count (bestCommBScore tr mm) = 1) :
    ∃ p ∈ comm_b_decoder_tags tr, (p.1 mm false).1 = bestCommBScore tr mm ∧
      decodeCommB tr mm = (p.1 mm true).2 ∧
      (decodeCommB tr mm).commb_format = p.2 := by
  obtain ⟨d, hmem, hsc, heq⟩ := decodeCommB_winner tr mm hgate hpos hcnt
  obtain ⟨t, htag, hfmt⟩ := decoder_tag_of_mem tr d hmem mm (by omega)
  exact ⟨(d, t), htag, hsc, heq, by rw [heq]; exact hfmt⟩

/-- C2: for every frame descriptor in which DR is nonzero, or UM is
nonzero, or correctedbits is greater than zero, decodeCommB sets
commb_format to NOT_DECODED, evaluates no candidate decoder, and writes no
other field of the frame descriptor (the result is the input frame with
only commb_format replaced). -/
theorem decodeCommB_gated_not_decoded (tr : TRCheck) (mm : ModesMessage)
    (h : mm.DR ≠ 0 ∨ mm.UM ≠ 0 ∨ 0 < mm.correctedbits) :
    decodeCommB tr mm = { mm with commb_format := CommBFormat.not_decoded } := by
  simp only [decodeCommB, if_pos h]

theorem decodeCommB_gated_not_decoded_witness :
    decodeCommB trNever { testFrame [0, 0, 0, 0, 0, 0, 0] with DR := 16 } =
      { { testFrame [0, 0, 0, 0, 0, 0, 0] with DR := 16 } with
        commb_format := CommBFormat.not_decoded } :=
  decodeCommB_gated_not_decoded trNever _ (Or.inl (by decide))

/-- C6: for every payload and every candidate decoder, a call with
store = false writes nothing to the frame descriptor: the updated frame the
scoring pass returns is the input frame itself, so commb_format, the
callsign, the navigation block, the kinematics fields, the meteorological
block and all validity flags are unchanged. -/
theorem scoring_pass_writes_nothing (tr : TRCheck) (mm : ModesMessage) :
    (decodeEmptyResponse mm false).2 = mm ∧
    (decodeBDS10 mm false).2 = mm ∧
    (decodeBDS20 mm false).2 = mm ∧
    (decodeBDS30 mm false).2 = mm ∧
    (decodeBDS17 mm false).2 = mm ∧
    (decodeBDS40 mm false).2 = mm ∧
    (decodeBDS50 tr mm false).2 = mm ∧
    (decodeBDS60 mm false).2 = mm ∧
    (decodeBDS44 mm false).2 = mm ∧
    (decodeBDS05 mm false).2 = mm :=
  ⟨mkDecoder_snd_false _ _ mm, mkDecoder_snd_false _ _ mm, mkDecoder_snd_false _ _ mm,
   mkDecoder_snd_false _ _ mm, mkDecoder_snd_false _ _ mm, mkDecoder_snd_false _ _ mm,
   mkDecoder_snd_false _ _ mm, mkDecoder_snd_false _ _ mm, mkDecoder_snd_false _ _ mm,
   mkDecoder_snd_false _ _ mm⟩

/-- C1: for every frame descriptor with DR = 0, UM = 0 and
correctedbits = 0, the classifier scores every candidate and: if exactly
one candidate achieves the maximum score and that score is positive, that
candidate is re-invoked with store = true and sets its commb_format tag;
if two or more candidates tie at the highest positive score, commb_format
is set to AMBIGUOUS and no store pass runs (only commb_format changes); if
every candidate scores zero or less, commb_format is set to UNKNOWN. -/
theorem commb_classifier_spec (tr : TRCheck) (mm : ModesMessage)
    (hDR : mm.DR = 0) (hUM : mm.UM = 0) (hCB : mm.correctedbits = 0) :
    (0 < bestCommBScore tr mm ∧ (commbScores tr mm).count (bestCommBScore tr mm) = 1 →
      ∃ p ∈ comm_b_decoder_tags tr, (p.1 mm false).1 = bestCommBScore tr mm ∧
        decodeCommB tr mm = (p.1 mm true).2 ∧
        (decodeCommB tr mm).commb_format = p.2) ∧
    (0 < bestCommBScore tr mm ∧ 2 ≤ (commbScores tr mm).count (bestCommBScore tr mm) →
      decodeCommB tr mm = { mm with commb_format := CommBFormat.ambiguous }) ∧
    ((∀ s ∈ commbScores tr mm, s ≤ 0) →
      decodeCommB tr mm = { mm with commb_format := CommBFormat.unknown }) := by
  have hgate : ¬(mm.DR ≠ 0 ∨ mm.UM ≠ 0 ∨ 0 < mm.correctedbits) := by
    simp [hDR, hUM, hCB]
  exact ⟨fun h => decodeCommB_winner_tag tr mm hgate h.1 h.2,
         fun h => decodeCommB_ambiguous tr mm hgate h.1 h.2,
         fun h => decodeCommB_unknown tr mm hgate h⟩

theorem commb_classifier_spec_witness :
    ∃ p ∈ comm_b_decoder_tags trNever,
      (p.1 (testFrame [0, 0, 0, 0, 0, 0, 0]) false).1 =
        bestCommBScore trNever (testFrame [0, 0, 0, 0, 0, 0, 0]) ∧
      decodeCommB trNever (testFrame [0, 0, 0, 0, 0, 0, 0]) =
        (p.1 (testFrame [0, 0, 0, 0, 0, 0, 0]) true).2 ∧
      (decodeCommB trNever (testFrame [0, 0, 0, 0, 0, 0, 0])).commb_format = p.2 :=
  (commb_classifier_spec trNever (testFrame [0, 0, 0, 0, 0, 0, 0]) rfl rfl rfl).1
    ⟨by decide, by decide⟩

/-- C10: decodeCommB assigns commb_format on every call: the result is the
gate's NOT_DECODED, or UNKNOWN, or AMBIGUOUS (all three leaving every other
field unchanged), or the outcome of re-invoking a maximal positively
scoring candidate with store = true, whose store pass always reaches its
commb_format assignment because the decoders are deterministic functions of
the frame descriptor and take the same accepting path as in scoring mode. -/
theorem decodeCommB_total_classification (tr : TRCheck) (mm : ModesMessage) :
    (mm.DR ≠ 0 ∨ mm.UM ≠ 0 ∨ 0 < mm.correctedbits →
      decodeCommB tr mm = { mm with commb_format := CommBFormat.not_decoded }) ∧
    (¬(mm.DR ≠ 0 ∨ mm.UM ≠ 0 ∨ 0 < mm.correctedbits) →
      decodeCommB tr mm = { mm with commb_format := CommBFormat.unknown } ∨
      decodeCommB tr mm = { mm with commb_format := CommBFormat.ambiguous } ∨
      ∃ p ∈ comm_b_decoder_tags tr, 0 < (p.1 mm false).1 ∧
        (∀ s ∈ commbScores tr mm, s ≤ (p.1 mm false).1) ∧
        decodeCommB tr mm = (p.1 mm true).2 ∧
        (decodeCommB tr mm).commb_format = p.2) := by
  constructor
  · intro h
    simp only [decodeCommB, if_pos h]
  · intro hgate
    rcases (bestScore_nonneg mm (comm_b_decoders tr)).eq_or_lt with hb | hb
    · left
      refine decodeCommB_unknown tr mm hgate fun s hs => ?_
      have := le_bestScore mm (comm_b_decoders tr) s hs
      omega
    · have hmem := bestScore_mem mm (comm_b_decoders tr) hb
      have hcnt : 0 < (scoreList mm (comm_b_decoders tr)).count
          (bestScore mm (comm_b_decoders tr)) := List.count_pos_iff.mpr hmem
      have hbc : bestCommBScore tr mm = bestScore mm (comm_b_decoders tr) := rfl
      have hslc : (commbScores tr mm).count (bestCommBScore tr mm) =
          (scoreList mm (comm_b_decoders tr)).count (bestScore mm (comm_b_decoders tr)) := rfl
      rcases Nat.lt_or_ge ((scoreList mm (comm_b_decoders tr)).count
          (bestScore mm (comm_b_decoders tr))) 2 with h2 | h2
      · right; right
        obtain ⟨p, hp, hsc, heq, hfmt⟩ := decodeCommB_winner_tag tr mm hgate hb (by omega)
        refine ⟨p, hp, by omega, fun s hs => ?_, heq, hfmt⟩
        have := le_bestScore mm (comm_b_decoders tr) s hs
        omega
      · right; left
        exact decodeCommB_ambiguous tr mm hgate hb h2

theorem decodeCommB_total_classification_witness :
    decodeCommB trNever (testFrame [0, 0, 0, 0, 0, 0, 0]) =
      { testFrame [0, 0, 0, 0, 0, 0, 0] with commb_format := CommBFormat.unknown } ∨
    decodeCommB trNever (testFrame [0, 0, 0, 0, 0, 0, 0]) =
      { testFrame [0, 0, 0, 0, 0, 0, 0] with commb_format := CommBFormat.ambiguous } ∨
    ∃ p ∈ comm_b_decoder_tags trNever, 0 < (p.1 (testFrame [0, 0, 0, 0, 0, 0, 0]) false).1 ∧
      (∀ s ∈ commbScores trNever (testFrame [0, 0, 0, 0, 0, 0, 0]),
        s ≤ (p.1 (testFrame [0, 0, 0, 0, 0, 0, 0]) false).1) ∧
      decodeCommB trNever (testFrame [0, 0, 0, 0, 0, 0, 0]) =
        (p.1 (testFrame [0, 0, 0, 0, 0, 0, 0]) true).2 ∧
      (decodeCommB trNever (testFrame [0, 0, 0, 0, 0, 0, 0])).commb_format = p.2 :=
  (decodeCommB_total_classification trNever (testFrame [0, 0, 0, 0, 0, 0, 0])).2 (by decide)

theorem optPart_cases1 {A B C : Prop} [Decidable A] [Decidable B] [Decidable C] {x y s : Int}
    (h : (if A then (if B then some x else none) else if C then some y else none) = some s) :
    s = x ∨ s = y := by
  split_ifs at h <;> simp_all

theorem optPart_cases2 {A C : Prop} [Decidable A] [Decidable C] {x y s : Int}
    (h : (if A then some x else if C then some y else none) = some s) :
    s = x ∨ s = y := by
  split_ifs at h <;> simp_all

theorem optPart_cases3 {A B C : Prop} [Decidable A] [Decidable B] [Decidable C] {x y z s : Int}
    (h : (if A then (if B then some x else if C then some y else none) else some z) = some s) :
    s = x ∨ s = y ∨ s = z := by
  split_ifs at h <;> simp_all

theorem optPart_cases4 {A B : Prop} [Decidable A] [Decidable B] {x z s : Int}
    (h : (if A then (if B then some x else none) else some z) = some s) :
    s = x ∨ s = z := by
  split_ifs at h <;> simp_all

theorem optPart_cases5 {A : Prop} [Decidable A] {x y s : Int}
    (h : (if A then some x else some y) = some s) :
    s = x ∨ s = y := by
  split_ifs at h <;> simp_all

theorem emptyResponseScore_le (mm : ModesMessage) (s : Int)
    (h : emptyResponseScore mm = some s) : s ≤ 56 := by
  simp only [emptyResponseScore] at h
  split at h
  · split at h
    · exact Option.noConfusion h
    · simp only [Option.some.injEq] at h; omega
  · exact Option.noConfusion h

theorem bds10Score_le (mm : ModesMessage) (s : Int)
    (h : bds10Score mm = some s) : s ≤ 56 := by
  simp only [bds10Score] at h
  split_ifs at h
  simp only [Option.some.injEq] at h; omega

theorem bds30Score_le (mm : ModesMessage) (s : Int)
    (h : bds30Score mm = some s) : s ≤ 56 := by
  simp only [bds30Score] at h
  split_ifs at h
  simp only [Option.some.injEq] at h; omega

theorem bds17Score_le (mm : ModesMessage) (s : Int)
    (h : bds17Score mm = some s) : s ≤ 10 := by
  simp only [bds17Score] at h
  split at h
  · exact Option.noConfusion h
  · simp only [Option.some.injEq] at h
    subst h
    refine le_trans (add_le_add (add_le_add (add_le_add ?_ ?_) ?_) ?_)
      (show (1 : Int) + 0 + 6 + 3 ≤ 10 by norm_num)
    · split_ifs <;> omega
    · split_ifs <;> omega
    · split_ifs <;> omega
    · split_ifs <;> omega

theorem goodChar_ne_at (c : Char) (h : goodChar c) : c ≠ '@' := by
  rintro rfl
  exact absurd h (by decide)

/-- Full characterisation of the BDS2,0 character loop on success: the
score grows by 6 per good character, the validity survives iff no '@'
appears, and every character is good or '@'. -/
theorem bds20Loop_spec (cs : List Char) : ∀ (s0 : Int) (v0 : Bool) (s : Int) (v : Bool),
    bds20Loop cs s0 v0 = some (s, v) →
    s = s0 + 6 * ((cs.countP fun c => decide (goodChar c) : Nat) : Int) ∧
    v = (v0 && cs.all fun c => !(decide (c = '@'))) ∧
    ∀ c ∈ cs, goodChar c ∨ c = '@' := by
  induction cs with
  | nil =>
    intro s0 v0 s v h
    simp only [bds20Loop, Option.some.injEq, Prod.mk.injEq] at h
    simp [← h.1, ← h.2]
  | cons c cs ih =>
    intro s0 v0 s v h
    simp only [bds20Loop] at h
    split at h
    · rename_i hgood
      obtain ⟨h1, h2, h3⟩ := ih _ _ _ _ h
      refine ⟨?_, ?_, ?_⟩
      · rw [h1, List.countP_cons]
        simp [hgood]
        ring
      · rw [h2, List.all_cons]
        have hne : c ≠ '@' := goodChar_ne_at c hgood
        simp [hne]
      · intro c' hc'
        rcases List.mem_cons.mp hc' with rfl | hmem
        · exact Or.inl hgood
        · exact h3 c' hmem
    · split at h
      · rename_i hnotgood hat
        obtain ⟨h1, h2, h3⟩ := ih _ _ _ _ h
        refine ⟨?_, ?_, ?_⟩
        · rw [h1, List.countP_cons]
          simp [hnotgood]
        · rw [h2, List.all_cons, hat]
          simp
        · intro c' hc'
          rcases List.mem_cons.mp hc' with rfl | hmem
          · exact Or.inr hat
          · exact h3 c' hmem
      · exact Option.noConfusion h

/-- Success inversion for the BDS2,0 scoring pass. -/
theorem bds20Score_inv (mm : ModesMessage) (s : Int) (h : bds20Score mm = some s) :
    mm.MB.getD 0 0 = (0x20 : Byte) ∧
    ∃ v, bds20Loop (bds20Chars mm.MB) 8 true = some (s, v) := by
  simp only [bds20Score] at h
  split at h
  · exact Option.noConfusion h
  · rename_i hb0
    refine ⟨by simpa using hb0, ?_⟩
    split at h
    · exact Option.noConfusion h
    · rename_i s' v' heq
      simp only [Option.some.injEq] at h
      exact ⟨v', by rw [heq, h]⟩

theorem bds20Score_le (mm : ModesMessage) (s : Int)
    (h : bds20Score mm = some s) : s ≤ 56 := by
  obtain ⟨-, v, hloop⟩ := bds20Score_inv mm s h
  obtain ⟨h1, -, -⟩ := bds20Loop_spec _ _ _ _ _ hloop
  have hlen : ((bds20Chars mm.MB).countP fun c => decide (goodChar c)) ≤
      (bds20Chars mm.MB).length := List.countP_le_length _
  have : (bds20Chars mm.MB).length = 8 := by simp [bds20Chars]
  omega

set_option maxHeartbeats 2000000 in
theorem bds40Score_le (mm : ModesMessage) (s : Int)
    (h : bds40Score mm = some s) : s ≤ 46 := by
  simp only [bds40Score] at h
  split at h
  · exact Option.noConfusion h
  · split at h <;> [skip; exact Option.noConfusion h]
    rename_i s1 s2 s3 h1 h2 h3
    split at h
    · exact Option.noConfusion h
    · split at h <;> [skip; exact Option.noConfusion h]
      rename_i s4 h4
      split at h
      · exact Option.noConfusion h
      · split at h <;> [skip; exact Option.noConfusion h]
        rename_i s5 h5
        simp only [Option.some.injEq] at h
        subst h
        have b1 : 1 ≤ s1 ∧ s1 ≤ 13 := by rcases optPart_cases1 h1 with rfl | rfl <;> norm_num
        have b2 : 1 ≤ s2 ∧ s2 ≤ 13 := by rcases optPart_cases1 h2 with rfl | rfl <;> norm_num
        have b3 : 1 ≤ s3 ∧ s3 ≤ 13 := by rcases optPart_cases1 h3 with rfl | rfl <;> norm_num
        have b4 : 1 ≤ s4 ∧ s4 ≤ 4 := by rcases optPart_cases2 h4 with rfl | rfl <;> norm_num
        have b5 : 1 ≤ s5 ∧ s5 ≤ 3 := by rcases optPart_cases2 h5 with rfl | rfl <;> norm_num
        split_ifs <;> omega

set_option maxHeartbeats 2000000 in
theorem bds50Score_le (tr : TRCheck) (mm : ModesMessage) (s : Int)
    (h : bds50Score tr mm = some s) : s ≤ 56 := by
  simp only [bds50Score] at h
  split at h
  · exact Option.noConfusion h
  · split at h <;> [skip; exact Option.noConfusion h]
    rename_i a b c d e h1 h2 h3 h4 h5
    simp only [Option.some.injEq] at h
    subst h
    have b1 : 1 ≤ a ∧ a ≤ 11 := by rcases optPart_cases1 h1 with rfl | rfl <;> norm_num
    have b2 : 1 ≤ b ∧ b ≤ 12 := by rcases optPart_cases2 h2 with rfl | rfl <;> norm_num
    have b3 : 1 ≤ c ∧ c ≤ 11 := by rcases optPart_cases1 h3 with rfl | rfl <;> norm_num
    have b4 : 1 ≤ d ∧ d ≤ 11 := by rcases optPart_cases1 h4 with rfl | rfl <;> norm_num
    have b5 : 1 ≤ e ∧ e ≤ 11 := by rcases optPart_cases1 h5 with rfl | rfl <;> norm_num
    split_ifs <;> omega

set_option maxHeartbeats 2000000 in
theorem bds60Score_le (mm : ModesMessage) (s : Int)
    (h : bds60Score mm = some s) : s ≤ 56 := by
  simp only [bds60Score] at h
  split at h
  · exact Option.noConfusion h
  · split at h <;> [skip; exact Option.noConfusion h]
    rename_i a b c d e h1 h2 h3 h4 h5
    simp only [Option.some.injEq] at h
    subst h
    have b1 : 1 ≤ a ∧ a ≤ 12 := by rcases optPart_cases2 h1 with rfl | rfl <;> norm_num
    have b2 : 1 ≤ b ∧ b ≤ 11 := by rcases optPart_cases1 h2 with rfl | rfl <;> norm_num
    have b3 : 1 ≤ c ∧ c ≤ 11 := by rcases optPart_cases1 h3 with rfl | rfl <;> norm_num
    have b4 : 1 ≤ d ∧ d ≤ 11 := by rcases optPart_cases1 h4 with rfl | rfl <;> norm_num
    have b5 : 1 ≤ e ∧ e ≤ 11 := by rcases optPart_cases1 h5 with rfl | rfl <;> norm_num
    split_ifs <;> omega

set_option maxHeartbeats 2000000 in
theorem bds44Score_bounds (mm : ModesMessage) (s : Int)
    (h : bds44Score mm = some s) :
    1 ≤ s ∧ s ≤ 52 ∧ (getbits mm.MB 1 4 = MRAR_SOURCE_DMEDME → s = 1) := by
  simp only [bds44Score] at h
  split at h
  · exact Option.noConfusion h
  · split at h
    · exact Option.noConfusion h
    · rename_i hsrcok hvalid
      split at h
      · exact Option.noConfusion h
      · split at h
        · exact Option.noConfusion h
        · split at h
          · exact Option.noConfusion h
          · split at h <;> [skip; exact Option.noConfusion h]
            rename_i w sa a t hu h1 h2 h3 h4 h5
            simp only [Option.some.injEq] at h
            subst h
            have b1 : 1 ≤ w ∧ w ≤ 19 := by
              rcases optPart_cases3 h1 with rfl | rfl | rfl <;> norm_num
            have b2 : 1 ≤ sa ∧ sa ≤ 11 := by
              rcases optPart_cases3 h2 with rfl | rfl | rfl <;> norm_num
            have b3 : 1 ≤ a ∧ a ≤ 12 := by
              rcases optPart_cases4 h3 with rfl | rfl <;> norm_num
            have b4 : 1 ≤ t ∧ t ≤ 3 := by
              rcases optPart_cases5 h4 with rfl | rfl <;> norm_num
            have b5 : 1 ≤ hu ∧ hu ≤ 7 := by
              rcases optPart_cases5 h5 with rfl | rfl <;> norm_num
            have hwv : getbit mm.MB 5 ≠ 0 ∧ getbit mm.MB 24 ≠ 0 := by
              constructor <;> (intro hz; exact hvalid (by omega))
            refine ⟨?_, ?_, ?_⟩
            · split_ifs <;> omega
            · split_ifs <;> omega
            · intro hsrc
              rw [if_pos ⟨hsrc, hwv.1, hwv.2, by omega⟩]

theorem mkDecoder_fst_lt (f : ModesMessage → Option Int) (g : ModesMessage → ModesMessage)
    (mm : ModesMessage) (b : Bool) (c : Int) (hcl : c < 80)
    (H : ∀ s, f mm = some s → s ≤ c) : (mkDecoder f g mm b).1 < 80 := by
  rw [mkDecoder_fst]
  cases hf : f mm with
  | none => simp
  | some s =>
    simp only [Option.getD_some]
    have := H s hf
    omega

/-- The first nine candidates (everything except decodeBDS05). -/
def comm_b_decoders_front (tr : TRCheck) : List Decoder :=
  [decodeEmptyResponse, decodeBDS10, decodeBDS20, decodeBDS30, decodeBDS17,
   decodeBDS40, decodeBDS50 tr, decodeBDS60, decodeBDS44]

theorem comm_b_decoders_eq (tr : TRCheck) :
    comm_b_decoders tr = comm_b_decoders_front tr ++ [decodeBDS05] := rfl

/-- Every candidate other than decodeBDS05 scores strictly below 80 on
every payload. -/
theorem front_scores_lt_80 (tr : TRCheck) (mm : ModesMessage) :
    ∀ s ∈ scoreList mm (comm_b_decoders_front tr), s < 80 := by
  intro s hs
  simp only [scoreList, comm_b_decoders_front, List.map_cons, List.map_nil,
    List.mem_cons, List.not_mem_nil, or_false] at hs
  rcases hs with rfl | rfl | rfl | rfl | rfl | rfl | rfl | rfl | rfl
  · exact mkDecoder_fst_lt _ _ mm false 56 (by norm_num) (emptyResponseScore_le mm)
  · exact mkDecoder_fst_lt _ _ mm false 56 (by norm_num) (bds10Score_le mm)
  · exact mkDecoder_fst_lt _ _ mm false 56 (by norm_num) (bds20Score_le mm)
  · exact mkDecoder_fst_lt _ _ mm false 56 (by norm_num) (bds30Score_le mm)
  · exact mkDecoder_fst_lt _ _ mm false 10 (by norm_num) (bds17Score_le mm)
  · exact mkDecoder_fst_lt _ _ mm false 46 (by norm_num) (bds40Score_le mm)
  · exact mkDecoder_fst_lt _ _ mm false 56 (by norm_num) (bds50Score_le tr mm)
  · exact mkDecoder_fst_lt _ _ mm false 56 (by norm_num) (bds60Score_le mm)
  · exact mkDecoder_fst_lt _ _ mm false 52 (by norm_num)
      (fun s h => (bds44Score_bounds mm s h).2.1)

/-- Acceptance characterisation of the BDS0,5 scoring pass. -/
theorem bds05Score_100_iff (mm : ModesMessage) :
    bds05Score mm = some 100 ↔
      (mm.msgtype = 20 ∧ 9 ≤ getbits mm.MB 1 5 ∧ getbits mm.MB 1 5 ≤ 18 ∧
       getbit mm.MB 21 = 0 ∧ getbits mm.MB 9 20 ≠ 0 ∧
       mm.AC = (((getbits mm.MB 9 20 &&& 0x0FC0) <<< 1) ||| (getbits mm.MB 9 20 &&& 0x003F)) ∧
       getbits mm.MB 23 39 ≠ 0 ∧ getbits mm.MB 40 56 ≠ 0) := by
  constructor
  · intro h
    simp only [bds05Score] at h
    split_ifs at h with h1 h2 h3 h4 h5 h6
    have h5' : mm.AC = ((getbits mm.MB 9 20 &&& 0x0FC0) <<< 1) ||| (getbits mm.MB 9 20 &&& 0x003F) :=
      not_ne_iff.mp h5
    refine ⟨by omega, by omega, by omega, by omega, h4, h5', ?_, ?_⟩
    · intro hz; exact h6 (Or.inl hz)
    · intro hz; exact h6 (Or.inr hz)
  · rintro ⟨hm, htc1, htc2, ht, hac12, hac, hlat, hlon⟩
    simp only [bds05Score]
    rw [if_neg (by omega), if_neg (by omega), if_neg (by omega), if_neg hac12,
      if_neg (by simp [hac]), if_neg (by simp [hlat, hlon])]

theorem bds05Score_cases (mm : ModesMessage) :
    bds05Score mm = none ∨ bds05Score mm = some 100 := by
  simp only [bds05Score]
  split_ifs <;> simp

/-- When decodeBDS05 accepts, it is the unique best candidate and the
classifier stores AIRBORNE_POSITION. -/
theorem bds05_wins (tr : TRCheck) (mm : ModesMessage)
    (hDR : mm.DR = 0) (hUM : mm.UM = 0) (hCB : mm.correctedbits = 0)
    (h05 : (decodeBDS05 mm false).1 = 100) :
    (decodeCommB tr mm).commb_format = CommBFormat.airborne_position := by
  have hgate : ¬(mm.DR ≠ 0 ∨ mm.UM ≠ 0 ∨ 0 < mm.correctedbits) := by
    simp [hDR, hUM, hCB]
  have hfront := front_scores_lt_80 tr mm
  have hfb : bestScore mm (comm_b_decoders_front tr) ≤ 80 := by
    rcases foldl_max_mem (scoreList mm (comm_b_decoders_front tr)) 0 with h | h
    · rw [bestScore, h]; norm_num
    · have := hfront _ h
      rw [bestScore]
      omega
  have hb : bestScore mm (comm_b_decoders tr) = 100 := by
    rw [comm_b_decoders_eq, bestScore_append, h05]
    exact max_eq_right (by omega)
  have hb' : bestCommBScore tr mm = 100 := hb
  have hcnt : (scoreList mm (comm_b_decoders tr)).count 100 = 1 := by
    rw [comm_b_decoders_eq, scoreList_append, List.count_append, h05]
    have h0 : (scoreList mm (comm_b_decoders_front tr)).count 100 = 0 :=
      List.count_eq_zero.mpr (fun hmem => absurd (hfront _ hmem) (by norm_num))
    simp [h0]
  obtain ⟨p, hp, hsc, heq, hfmt⟩ := decodeCommB_winner_tag tr mm hgate
    (by rw [hb']; norm_num)
    (by rw [hb']; exact hcnt)
  rw [hb'] at hsc
  simp only [comm_b_decoder_tags, List.mem_cons, List.not_mem_nil, or_false] at hp
  have hmem9 : ∀ d : Decoder, d ∈ comm_b_decoders_front tr →
      (d mm false).1 < 80 := by
    intro d hd
    exact hfront _ (List.mem_map_of_mem _ hd)
  rcases hp with rfl | rfl | rfl | rfl | rfl | rfl | rfl | rfl | rfl | rfl
  · have hsc' : (decodeEmptyResponse mm false).1 = 100 := hsc
    have := hmem9 decodeEmptyResponse (by simp [comm_b_decoders_front])
    omega
  · have hsc' : (decodeBDS10 mm false).1 = 100 := hsc
    have := hmem9 decodeBDS10 (by simp [comm_b_decoders_front])
    omega
  · have hsc' : (decodeBDS20 mm false).1 = 100 := hsc
    have := hmem9 decodeBDS20 (by simp [comm_b_decoders_front])
    omega
  · have hsc' : (decodeBDS30 mm false).1 = 100 := hsc
    have := hmem9 decodeBDS30 (by simp [comm_b_decoders_front])
    omega
  · have hsc' : (decodeBDS17 mm false).1 = 100 := hsc
    have := hmem9 decodeBDS17 (by simp [comm_b_decoders_front])
    omega
  · have hsc' : (decodeBDS40 mm false).1 = 100 := hsc
    have := hmem9 decodeBDS40 (by simp [comm_b_decoders_front])
    omega
  · have hsc' : (decodeBDS50 tr mm false).1 = 100 := hsc
    have := hmem9 (decodeBDS50 tr) (by simp [comm_b_decoders_front])
    omega
  · have hsc' : (decodeBDS60 mm false).1 = 100 := hsc
    have := hmem9 decodeBDS60 (by simp [comm_b_decoders_front])
    omega
  · have hsc' : (decodeBDS44 mm false).1 = 100 := hsc
    have := hmem9 decodeBDS44 (by simp [comm_b_decoders_front])
    omega
  · exact hfmt

/-- C3: the BDS0,5 candidate scores 0 or exactly 100, and 100 exactly when
msgtype is 20, the typecode in bits 1..5 is between 9 and 18, bit 21 is 0,
AC12 in bits 9..20 is nonzero and matches the frame AC after inserting a
zero M bit, and the lat and lon fields are both nonzero; every other
candidate scores strictly below 80 on every payload; hence whenever BDS0,5
accepts under the classifier gate, the frame is classified
AIRBORNE_POSITION. -/
theorem bds05_recognition_spec (tr : TRCheck) (mm : ModesMessage) :
    ((decodeBDS05 mm false).1 = 0 ∨ (decodeBDS05 mm false).1 = 100) ∧
    ((decodeBDS05 mm false).1 = 100 ↔
      (mm.msgtype = 20 ∧ 9 ≤ getbits mm.MB 1 5 ∧ getbits mm.MB 1 5 ≤ 18 ∧
       getbit mm.MB 21 = 0 ∧ getbits mm.MB 9 20 ≠ 0 ∧
       mm.AC = (((getbits mm.MB 9 20 &&& 0x0FC0) <<< 1) ||| (getbits mm.MB 9 20 &&& 0x003F)) ∧
       getbits mm.MB 23 39 ≠ 0 ∧ getbits mm.MB 40 56 ≠ 0)) ∧
    (∀ s ∈ scoreList mm (comm_b_decoders_front tr), s < 80) ∧
    (mm.DR = 0 → mm.UM = 0 → mm.correctedbits = 0 → (decodeBDS05 mm false).1 = 100 →
      (decodeCommB tr mm).commb_format = CommBFormat.airborne_position) := by
  have hfst : (decodeBDS05 mm false).1 = (bds05Score mm).getD 0 :=
    mkDecoder_fst bds05Score bds05Store mm false
  refine ⟨?_, ?_, front_scores_lt_80 tr mm, bds05_wins tr mm⟩
  · rcases bds05Score_cases mm with h | h <;> rw [hfst, h] <;> simp
  · rw [hfst]
    rcases bds05Score_cases mm with h | h
    · rw [h]
      simp only [Option.getD_none]
      constructor
      · intro h0; omega
      · intro hc
        have := (bds05Score_100_iff mm).mpr hc
        rw [h] at this
        exact Option.noConfusion this
    · rw [h]
      simp only [Option.getD_some]
      constructor
      · intro _; exact (bds05Score_100_iff mm).mp h
      · intro _; trivial

theorem bds05_recognition_spec_witness :
    (decodeCommB trNever
        { testFrame [0x48, 0x00, 0x10, 0x00, 0x02, 0x00, 0x01] with
          msgtype := 20, AC := 1 }).commb_format = CommBFormat.airborne_position :=
  (bds05_recognition_spec trNever _).2.2.2 rfl rfl rfl (by decide)

theorem getbit_lt_two (msg : List Byte) (n : Nat) : getbit msg n < 2 :=
  Nat.mod_lt _ (by norm_num)

theorem getbitsAux_eq_zero (msg : List Byte) (lo : Nat) :
    ∀ k, getbitsAux msg lo k = 0 → ∀ i, i < k → getbit msg (lo + i) = 0 := by
  intro k
  induction k with
  | zero => intro _ i hi; omega
  | succ k ih =>
    intro h i hi
    simp only [getbitsAux] at h
    have h1 : getbitsAux msg lo k = 0 := by omega
    have h2 : getbit msg (lo + k) = 0 := by omega
    rcases Nat.lt_or_ge i k with hik | hik
    · exact ih h1 i hik
    · have : i = k := by omega
      subst this; exact h2

theorem getbit_eq_zero_of_getbits (msg : List Byte) (lo hi n : Nat)
    (h : getbits msg lo hi = 0) (h1 : lo ≤ n) (h2 : n ≤ hi) : getbit msg n = 0 := by
  have := getbitsAux_eq_zero msg lo (hi + 1 - lo) h (n - lo) (by omega)
  rwa [Nat.add_sub_cancel' h1] at this

theorem getbits_1_4_expand (msg : List Byte) :
    getbits msg 1 4 = ((getbit msg 1 * 2 + getbit msg 2) * 2 + getbit msg 3) * 2 + getbit msg 4 := by
  simp [getbits, getbitsAux]

theorem getbits_1_5_expand (msg : List Byte) :
    getbits msg 1 5 = getbits msg 1 4 * 2 + getbit msg 5 := by
  simp [getbits, getbitsAux]

/-- The four bits of the MRAR source field, when the field reads 3. -/
theorem source_bits_of_three (msg : List Byte) (h : getbits msg 1 4 = 3) :
    getbit msg 1 = 0 ∧ getbit msg 2 = 0 ∧ getbit msg 3 = 1 ∧ getbit msg 4 = 1 := by
  rw [getbits_1_4_expand] at h
  have b1 := getbit_lt_two msg 1
  have b2 := getbit_lt_two msg 2
  have b3 := getbit_lt_two msg 3
  have b4 := getbit_lt_two msg 4
  omega

/-- The first payload byte cannot be any of the BDS identifiers the other
candidates test for, once the MRAR source field reads 3 and the wind
validity bit is set. -/
theorem byte0_facts (msg : List Byte) (h14 : getbits msg 1 4 = 3) (h5 : getbit msg 5 ≠ 0) :
    msg.getD 0 0 ≠ (0x00 : Byte) ∧ msg.getD 0 0 ≠ (0x10 : Byte) ∧ msg.getD 0 0 ≠ (0x20 : Byte) ∧
    msg.getD 0 0 ≠ (0x30 : Byte) ∧ msg.getD 0 0 ≠ (0x40 : Byte) ∧ msg.getD 0 0 ≠ (0x50 : Byte) ∧
    msg.getD 0 0 ≠ (0x60 : Byte) := by
  have e1 : getbit msg 1 = (msg.getD 0 0).val / 128 % 2 := rfl
  have e2 : getbit msg 2 = (msg.getD 0 0).val / 64 % 2 := rfl
  have e3 : getbit msg 3 = (msg.getD 0 0).val / 32 % 2 := rfl
  have e4 : getbit msg 4 = (msg.getD 0 0).val / 16 % 2 := rfl
  have e5 : getbit msg 5 = (msg.getD 0 0).val / 8 % 2 := rfl
  rw [getbits_1_4_expand, e1, e2, e3, e4] at h14
  rw [e5] at h5
  have hv0 : (0x00 : Byte).val = 0 := rfl
  have hv1 : (0x10 : Byte).val = 16 := rfl
  have hv2 : (0x20 : Byte).val = 32 := rfl
  have hv3 : (0x30 : Byte).val = 48 := rfl
  have hv4 : (0x40 : Byte).val = 64 := rfl
  have hv5 : (0x50 : Byte).val = 80 := rfl
  have hv6 : (0x60 : Byte).val = 96 := rfl
  refine ⟨?_, ?_, ?_, ?_, ?_, ?_, ?_⟩ <;>
    (intro heq; rw [Fin.ext_iff] at heq; omega)

theorem emptyResponseScore_none (mm : ModesMessage)
    (h0 : mm.MB.getD 0 0 ≠ (0x00 : Byte)) (h4 : mm.MB.getD 0 0 ≠ (0x40 : Byte))
    (h5 : mm.MB.getD 0 0 ≠ (0x50 : Byte)) (h6 : mm.MB.getD 0 0 ≠ (0x60 : Byte)) :
    emptyResponseScore mm = none := by
  simp only [emptyResponseScore]
  rw [if_neg]
  rintro (h | h | h | h)
  exacts [h0 h, h4 h, h5 h, h6 h]

theorem bds10Score_none (mm : ModesMessage) (h : mm.MB.getD 0 0 ≠ (0x10 : Byte)) :
    bds10Score mm = none := by
  simp only [bds10Score]
  rw [if_pos h]

theorem bds20Score_none (mm : ModesMessage) (h : mm.MB.getD 0 0 ≠ (0x20 : Byte)) :
    bds20Score mm = none := by
  simp only [bds20Score]
  rw [if_pos h]

theorem bds30Score_none (mm : ModesMessage) (h : mm.MB.getD 0 0 ≠ (0x30 : Byte)) :
    bds30Score mm = none := by
  simp only [bds30Score]
  rw [if_pos h]

theorem bds40Score_none (mm : ModesMessage) (h1 : getbit mm.MB 1 = 0)
    (hraw : getbits mm.MB 2 13 ≠ 0) : bds40Score mm = none := by
  simp only [bds40Score]
  split
  · rfl
  · split
    · rename_i s1 s2 s3 hs1 hs2 hs3
      rw [if_neg (fun hc => hc.1 h1), if_neg (fun hc => hraw hc.2)] at hs1
      exact Option.noConfusion hs1
    · rfl

theorem bds50Score_none (tr : TRCheck) (mm : ModesMessage) (h1 : getbit mm.MB 1 = 0) :
    bds50Score tr mm = none := by
  simp only [bds50Score]
  rw [if_pos (Or.inl h1)]

theorem bds60Score_none (mm : ModesMessage) (h1 : getbit mm.MB 1 = 0) :
    bds60Score mm = none := by
  simp only [bds60Score]
  rw [if_pos (Or.inl h1)]

theorem bds05Score_none_of_low_typecode (mm : ModesMessage)
    (h : getbits mm.MB 1 5 < 9) : bds05Score mm = none := by
  simp only [bds05Score]
  split
  · rfl
  · rw [if_pos (Or.inl h)]

theorem bds44Score_valid_bits (mm : ModesMessage) (s : Int) (h : bds44Score mm = some s) :
    getbit mm.MB 5 ≠ 0 ∧ getbit mm.MB 24 ≠ 0 := by
  simp only [bds44Score] at h
  split at h
  · exact Option.noConfusion h
  · split at h
    · exact Option.noConfusion h
    · rename_i hvalid
      constructor <;> (intro hz; exact hvalid (by omega))

theorem bds17Score_reserved (mm : ModesMessage) (s : Int) (h : bds17Score mm = some s) :
    getbits mm.MB 25 56 = 0 := by
  simp only [bds17Score] at h
  split at h
  · exact Option.noConfusion h
  · rename_i hres
    omega

/-- Under the collision conditions (MRAR source DME/DME, BDS4,4 accepted,
GICB scoring at least 2) every other candidate vetoes, BDS4,4 is clamped
to 1, and the classifier prefers GICB_CAPS. -/
theorem bds44_gicb_preference (tr : TRCheck) (mm : ModesMessage)
    (hDR : mm.DR = 0) (hUM : mm.UM = 0) (hCB : mm.correctedbits = 0)
    (hsrc : getbits mm.MB 1 4 = MRAR_SOURCE_DMEDME)
    (h44 : 0 < (decodeBDS44 mm false).1)
    (h17 : 2 ≤ (decodeBDS17 mm false).1) :
    (decodeBDS44 mm false).1 = 1 ∧
    (decodeCommB tr mm).commb_format = CommBFormat.gicb_caps := by
  have hgate : ¬(mm.DR ≠ 0 ∨ mm.UM ≠ 0 ∨ 0 < mm.correctedbits) := by
    simp [hDR, hUM, hCB]
  obtain ⟨s44, hs44, -⟩ := mkDecoder_pos bds44Score bds44Store mm false h44
  have h44v := bds44Score_valid_bits mm s44 hs44
  have h44b := bds44Score_bounds mm s44 hs44
  have hs44eq : (decodeBDS44 mm false).1 = s44 := by
    have h := mkDecoder_fst bds44Score bds44Store mm false
    rw [hs44] at h
    exact h
  have h44one : s44 = 1 := h44b.2.2 hsrc
  obtain ⟨s17, hs17, -⟩ := mkDecoder_pos bds17Score bds17Store mm false
    (lt_of_lt_of_le (by norm_num) h17)
  have hs17eq : (decodeBDS17 mm false).1 = s17 := by
    have h := mkDecoder_fst bds17Score bds17Store mm false
    rw [hs17] at h
    exact h
  have hs17ge : 2 ≤ s17 := by rw [hs17eq] at h17; exact h17
  obtain ⟨hb1, hb2, hb3, hb4⟩ := source_bits_of_three mm.MB hsrc
  have hb5 : getbit mm.MB 5 ≠ 0 := h44v.1
  obtain ⟨hB00, hB10, hB20, hB30, hB40, hB50, hB60⟩ := byte0_facts mm.MB hsrc hb5
  have z0 : (decodeEmptyResponse mm false).1 = 0 := by
    have h := mkDecoder_fst emptyResponseScore emptyResponseStore mm false
    rw [emptyResponseScore_none mm hB00 hB40 hB50 hB60] at h
    exact h
  have z1 : (decodeBDS10 mm false).1 = 0 := by
    have h := mkDecoder_fst bds10Score bds10Store mm false
    rw [bds10Score_none mm hB10] at h
    exact h
  have z2 : (decodeBDS20 mm false).1 = 0 := by
    have h := mkDecoder_fst bds20Score bds20Store mm false
    rw [bds20Score_none mm hB20] at h
    exact h
  have z3 : (decodeBDS30 mm false).1 = 0 := by
    have h := mkDecoder_fst bds30Score bds30Store mm false
    rw [bds30Score_none mm hB30] at h
    exact h
  have hraw : getbits mm.MB 2 13 ≠ 0 := by
    intro hz
    have := getbit_eq_zero_of_getbits mm.MB 2 13 3 hz (by norm_num) (by norm_num)
    omega
  have z5 : (decodeBDS40 mm false).1 = 0 := by
    have h := mkDecoder_fst bds40Score bds40Store mm false
    rw [bds40Score_none mm hb1 hraw] at h
    exact h
  have z6 : (decodeBDS50 tr mm false).1 = 0 := by
    have h := mkDecoder_fst (bds50Score tr) bds50Store mm false
    rw [bds50Score_none tr mm hb1] at h
    exact h
  have z7 : (decodeBDS60 mm false).1 = 0 := by
    have h := mkDecoder_fst bds60Score bds60Store mm false
    rw [bds60Score_none mm hb1] at h
    exact h
  have hb5' : getbit mm.MB 5 = 1 := by
    have := getbit_lt_two mm.MB 5
    omega
  have hdme : MRAR_SOURCE_DMEDME = 3 := rfl
  have htc : getbits mm.MB 1 5 = 7 := by
    rw [getbits_1_5_expand, hsrc, hdme, hb5']
  have z9 : (decodeBDS05 mm false).1 = 0 := by
    have h := mkDecoder_fst bds05Score bds05Store mm false
    rw [bds05Score_none_of_low_typecode mm (by omega)] at h
    exact h
  have hsc : commbScores tr mm = [0, 0, 0, 0, s17, 0, 0, 0, s44, 0] := by
    simp only [commbScores, scoreList, comm_b_decoders, List.map_cons, List.map_nil]
    rw [z0, z1, z2, z3, hs17eq, z5, z6, z7, hs44eq, z9]
  have hs17mem : s17 ∈ commbScores tr mm := by rw [hsc]; simp
  have hble : ∀ x ∈ commbScores tr mm, x ≤ s17 := by
    rw [hsc]
    intro x hx
    simp only [List.mem_cons, List.not_mem_nil, or_false] at hx
    rcases hx with rfl | rfl | rfl | rfl | rfl | rfl | rfl | rfl | rfl | rfl <;> omega
  have hb_ub : bestCommBScore tr mm ≤ s17 := by
    rcases foldl_max_mem (scoreList mm (comm_b_decoders tr)) 0 with h | h
    · have h' : bestCommBScore tr mm = 0 := h
      omega
    · exact hble _ h
  have hb_lb : s17 ≤ bestCommBScore tr mm := le_bestScore mm (comm_b_decoders tr) s17 hs17mem
  have hbest : bestCommBScore tr mm = s17 := le_antisymm hb_ub hb_lb
  have hpos : 0 < bestCommBScore tr mm := by omega
  have hcnt : (commbScores tr mm).count (bestCommBScore tr mm) = 1 := by
    rw [hbest, hsc]
    have hne0 : s17 ≠ 0 := by omega
    have hne1 : s17 ≠ 1 := by omega
    simp [List.count_cons, hne0, hne1, h44one]
  obtain ⟨p, hp, hpsc, heq, hfmt⟩ := decodeCommB_winner_tag tr mm hgate hpos hcnt
  rw [hbest] at hpsc
  simp only [comm_b_decoder_tags, List.mem_cons, List.not_mem_nil, or_false] at hp
  refine ⟨by omega, ?_⟩
  rcases hp with rfl | rfl | rfl | rfl | rfl | rfl | rfl | rfl | rfl | rfl
  · have h' : (decodeEmptyResponse mm false).1 = s17 := hpsc
    omega
  · have h' : (decodeBDS10 mm false).1 = s17 := hpsc
    omega
  · have h' : (decodeBDS20 mm false).1 = s17 := hpsc
    omega
  · have h' : (decodeBDS30 mm false).1 = s17 := hpsc
    omega
  · exact hfmt
  · have h' : (decodeBDS40 mm false).1 = s17 := hpsc
    omega
  · have h' : (decodeBDS50 tr mm false).1 = s17 := hpsc
    omega
  · have h' : (decodeBDS60 mm false).1 = s17 := hpsc
    omega
  · have h' : (decodeBDS44 mm false).1 = s17 := hpsc
    omega
  · have h' : (decodeBDS05 mm false).1 = s17 := hpsc
    omega

/-- C7: in the BDS4,4 candidate, if the source tag equals DME/DME (source
field value 3) then any accepted payload is clamped to score exactly 1;
consequently a payload that also structurally matches the GICB capability
report with a score of 2 or more is classified GICB_CAPS rather than
MRAR. -/
theorem bds44_dmedme_clamp_spec (tr : TRCheck) (mm : ModesMessage) :
    (getbits mm.MB 1 4 = MRAR_SOURCE_DMEDME →
      (decodeBDS44 mm false).1 = 0 ∨ (decodeBDS44 mm false).1 = 1) ∧
    (mm.DR = 0 → mm.UM = 0 → mm.correctedbits = 0 →
      getbits mm.MB 1 4 = MRAR_SOURCE_DMEDME →
      0 < (decodeBDS44 mm false).1 →
      2 ≤ (decodeBDS17 mm false).1 →
      (decodeBDS44 mm false).1 = 1 ∧
      (decodeCommB tr mm).commb_format = CommBFormat.gicb_caps) := by
  constructor
  · intro hsrc
    have h : (decodeBDS44 mm false).1 = (bds44Score mm).getD 0 :=
      mkDecoder_fst bds44Score bds44Store mm false
    cases hf : bds44Score mm with
    | none => left; rw [hf] at h; exact h
    | some s =>
      right
      rw [hf] at h
      have := (bds44Score_bounds mm s hf).2.2 hsrc
      simp only [Option.getD_some] at h
      omega
  · intro hDR hUM hCB hsrc h44 h17
    exact bds44_gicb_preference tr mm hDR hUM hCB hsrc h44 h17

theorem bds44_dmedme_clamp_spec_witness :
    (decodeBDS44 (testFrame [0x3A, 0x01, 0x01, 0, 0, 0, 0]) false).1 = 1 ∧
    (decodeCommB trNever (testFrame [0x3A, 0x01, 0x01, 0, 0, 0, 0])).commb_format =
      CommBFormat.gicb_caps :=
  (bds44_dmedme_clamp_spec trNever (testFrame [0x3A, 0x01, 0x01, 0, 0, 0, 0])).2
    rfl rfl rfl (by decide) (by with_unfolding_all decide) (by with_unfolding_all decide)

/-- When the track-rate validity bit (bit 35) is clear, the abstract
turn-rate predicate is never consulted, so the BDS5,0 score does not depend
on it. -/
theorem bds50Score_tr_indep (tr tr' : TRCheck) (mm : ModesMessage)
    (h35 : getbit mm.MB 35 = 0) : bds50Score tr mm = bds50Score tr' mm := by
  simp [bds50Score, h35]

/-- C4 (code evaluation): two BDS5,0 payloads that pass every field veto,
identical except for the TAS field — the first has GS = 600 kt and
TAS = 100 kt (|GS − TAS| = 500 > 150), the second GS = 600 kt and
TAS = 600 kt — receive the same score 46 from the code, for every choice of
the turn-rate predicate: the −6 penalty the claim requires for the first
payload never fires, because the source compares the two VALIDITY bits
(abs(gs_valid − tas_valid) = 0) instead of the speeds. -/
theorem bds50_gs_tas_penalty_never_fires (tr : TRCheck) :
    getbit (testFrame [0x81, 0x50, 0xC9, 0x4B, 0x00, 0x04, 0x32]).MB 24 ≠ 0 ∧
    getbit (testFrame [0x81, 0x50, 0xC9, 0x4B, 0x00, 0x04, 0x32]).MB 46 ≠ 0 ∧
    getbits (testFrame [0x81, 0x50, 0xC9, 0x4B, 0x00, 0x04, 0x32]).MB 25 34 * 2 = 600 ∧
    getbits (testFrame [0x81, 0x50, 0xC9, 0x4B, 0x00, 0x04, 0x32]).MB 47 56 * 2 = 100 ∧
    getbits (testFrame [0x81, 0x50, 0xC9, 0x4B, 0x00, 0x05, 0x2C]).MB 47 56 * 2 = 600 ∧
    (decodeBDS50 tr (testFrame [0x81, 0x50, 0xC9, 0x4B, 0x00, 0x04, 0x32]) false).1 = 46 ∧
    (decodeBDS50 tr (testFrame [0x81, 0x50, 0xC9, 0x4B, 0x00, 0x05, 0x2C]) false).1 = 46 := by
  refine ⟨by decide, by decide, by decide, by decide, by decide, ?_, ?_⟩
  · have h : (decodeBDS50 tr (testFrame [0x81, 0x50, 0xC9, 0x4B, 0x00, 0x04, 0x32]) false).1 =
        (bds50Score tr (testFrame [0x81, 0x50, 0xC9, 0x4B, 0x00, 0x04, 0x32])).getD 0 :=
      mkDecoder_fst _ _ _ _
    rw [bds50Score_tr_indep tr trNever _ (by decide)] at h
    rw [h, show bds50Score trNever (testFrame [0x81, 0x50, 0xC9, 0x4B, 0x00, 0x04, 0x32]) =
      some 46 by with_unfolding_all decide]
    rfl
  · have h : (decodeBDS50 tr (testFrame [0x81, 0x50, 0xC9, 0x4B, 0x00, 0x05, 0x2C]) false).1 =
        (bds50Score tr (testFrame [0x81, 0x50, 0xC9, 0x4B, 0x00, 0x05, 0x2C])).getD 0 :=
      mkDecoder_fst _ _ _ _
    rw [bds50Score_tr_indep tr trNever _ (by decide)] at h
    rw [h, show bds50Score trNever (testFrame [0x81, 0x50, 0xC9, 0x4B, 0x00, 0x05, 0x2C]) =
      some 46 by with_unfolding_all decide]
    rfl

theorem getbitsAux_lt (msg : List Byte) (lo : Nat) : ∀ k, getbitsAux msg lo k < 2 ^ k := by
  intro k
  induction k with
  | zero => simp [getbitsAux]
  | succ k ih =>
    simp only [getbitsAux]
    have hb := getbit_lt_two msg (lo + k)
    have hpow : 2 ^ (k + 1) = 2 ^ k * 2 := by ring
    omega

theorem getbits_lt (msg : List Byte) (lo hi : Nat) :
    getbits msg lo hi < 2 ^ (hi + 1 - lo) :=
  getbitsAux_lt msg lo (hi + 1 - lo)

/-- C5 (counterexample): a BDS4,0 payload with bit 48 set and bits 49..51
reading 1 — which the claim says is a valid target-altitude source with raw
value 1, to be mapped to AIRCRAFT — is accepted with a positive score, yet
its store pass writes altitude source INVALID (bit 54, the actual source
validity flag, is clear) and treats bits 49..51 as the autopilot-mode
bitfield, setting the APPROACH mode flag. -/
theorem bds40_source_layout_counterexample :
    getbit (testFrame [0x97, 0x70, 0, 0, 0, 0x01, 0x20]).MB 48 = 1 ∧
    getbits (testFrame [0x97, 0x70, 0, 0, 0, 0x01, 0x20]).MB 49 51 = 1 ∧
    0 < (decodeBDS40 (testFrame [0x97, 0x70, 0, 0, 0, 0x01, 0x20]) true).1 ∧
    (decodeBDS40 (testFrame [0x97, 0x70, 0, 0, 0, 0x01, 0x20]) true).2.nav_altitude_source ≠
      NavAltitudeSource.aircraft ∧
    (decodeBDS40 (testFrame [0x97, 0x70, 0, 0, 0, 0x01, 0x20]) true).2.nav_altitude_source =
      NavAltitudeSource.invalid ∧
    (decodeBDS40 (testFrame [0x97, 0x70, 0, 0, 0, 0x01, 0x20]) true).2.nav_modes_valid = true ∧
    (decodeBDS40 (testFrame [0x97, 0x70, 0, 0, 0, 0x01, 0x20]) true).2.nav_modes =
      NAV_MODE_APPROACH := by
  with_unfolding_all decide

/-- C5 (amended): in the BDS4,0 candidate, bit 48 is the capability-mode
validity flag with its raw bitfield in bits 49..51 (VNAV = 4, ALT_HOLD = 2,
APPROACH = 1), and bit 54 is the target-altitude-source validity flag with
its raw value in bits 55..56; the two-bit raw value is always below 4, so
the INVALID fallback of the source switch is unreachable; on a store pass
reached with a positive score, source raw values 0, 1, 2, 3 map to UNKNOWN,
AIRCRAFT, MCP, FMS respectively, and a clear source validity bit maps to
INVALID. -/
theorem bds40_mode_source_layout_spec (mm : ModesMessage)
    (h : 0 < (decodeBDS40 mm true).1) :
    getbits mm.MB 55 56 < 4 ∧
    ((decodeBDS40 mm true).2.nav_altitude_source =
      if getbit mm.MB 54 ≠ 0 then
        if getbits mm.MB 55 56 = 0 then NavAltitudeSource.unknown
        else if getbits mm.MB 55 56 = 1 then NavAltitudeSource.aircraft
        else if getbits mm.MB 55 56 = 2 then NavAltitudeSource.mcp
        else if getbits mm.MB 55 56 = 3 then NavAltitudeSource.fms
        else NavAltitudeSource.invalid
      else NavAltitudeSource.invalid) ∧
    ((decodeBDS40 mm true).2.nav_modes_valid =
      if getbit mm.MB 48 ≠ 0 then true else mm.nav_modes_valid) ∧
    ((decodeBDS40 mm true).2.nav_modes =
      if getbit mm.MB 48 ≠ 0 then
        (if getbits mm.MB 49 51 &&& 4 ≠ 0 then NAV_MODE_VNAV else 0) |||
        (if getbits mm.MB 49 51 &&& 2 ≠ 0 then NAV_MODE_ALT_HOLD else 0) |||
        (if getbits mm.MB 49 51 &&& 1 ≠ 0 then NAV_MODE_APPROACH else 0)
      else mm.nav_modes) := by
  obtain ⟨s, hs, -⟩ := mkDecoder_pos bds40Score bds40Store mm true h
  have hstore : (decodeBDS40 mm true).2 = bds40Store mm :=
    mkDecoder_snd_true bds40Score bds40Store mm s hs
  refine ⟨?_, ?_, ?_, ?_⟩
  · have := getbits_lt mm.MB 55 56
    norm_num at this
    exact this
  · rw [hstore]; rfl
  · rw [hstore]; rfl
  · rw [hstore]; rfl

theorem bds40_mode_source_layout_spec_witness :
    getbits (testFrame [0x97, 0x70, 0, 0, 0, 0x00, 0x06]).MB 55 56 < 4 ∧
    ((decodeBDS40 (testFrame [0x97, 0x70, 0, 0, 0, 0x00, 0x06]) true).2.nav_altitude_source =
      if getbit (testFrame [0x97, 0x70, 0, 0, 0, 0x00, 0x06]).MB 54 ≠ 0 then
        if getbits (testFrame [0x97, 0x70, 0, 0, 0, 0x00, 0x06]).MB 55 56 = 0 then
          NavAltitudeSource.unknown
        else if getbits (testFrame [0x97, 0x70, 0, 0, 0, 0x00, 0x06]).MB 55 56 = 1 then
          NavAltitudeSource.aircraft
        else if getbits (testFrame [0x97, 0x70, 0, 0, 0, 0x00, 0x06]).MB 55 56 = 2 then
          NavAltitudeSource.mcp
        else if getbits (testFrame [0x97, 0x70, 0, 0, 0, 0x00, 0x06]).MB 55 56 = 3 then
          NavAltitudeSource.fms
        else NavAltitudeSource.invalid
      else NavAltitudeSource.invalid) ∧
    ((decodeBDS40 (testFrame [0x97, 0x70, 0, 0, 0, 0x00, 0x06]) true).2.nav_modes_valid =
      if getbit (testFrame [0x97, 0x70, 0, 0, 0, 0x00, 0x06]).MB 48 ≠ 0 then true
      else (testFrame [0x97, 0x70, 0, 0, 0, 0x00, 0x06]).nav_modes_valid) ∧
    ((decodeBDS40 (testFrame [0x97, 0x70, 0, 0, 0, 0x00, 0x06]) true).2.nav_modes =
      if getbit (testFrame [0x97, 0x70, 0, 0, 0, 0x00, 0x06]).MB 48 ≠ 0 then
        (if getbits (testFrame [0x97, 0x70, 0, 0, 0, 0x00, 0x06]).MB 49 51 &&& 4 ≠ 0 then
          NAV_MODE_VNAV else 0) |||
        (if getbits (testFrame [0x97, 0x70, 0, 0, 0, 0x00, 0x06]).MB 49 51 &&& 2 ≠ 0 then
          NAV_MODE_ALT_HOLD else 0) |||
        (if getbits (testFrame [0x97, 0x70, 0, 0, 0, 0x00, 0x06]).MB 49 51 &&& 1 ≠ 0 then
          NAV_MODE_APPROACH else 0)
      else (testFrame [0x97, 0x70, 0, 0, 0, 0x00, 0x06]).nav_modes) :=
  bds40_mode_source_layout_spec (testFrame [0x97, 0x70, 0, 0, 0, 0x00, 0x06])
    (by with_unfolding_all decide)

/-- C8 (counterexample): two accepted BDS4,4 payloads, identical except for
the wind-speed raw field (0 kt versus 100 kt, both valid and at most
250 kt), score 16 and 33: the wind field contributes +2 at raw value 0 and
+19 otherwise, so the claim that a valid wind of at most 250 kt always
contributes exactly +19 fails at wind speed 0. -/
theorem bds44_zero_wind_counterexample :
    getbit (testFrame [0x18, 0x00, 0x01, 0x0A, 0, 0, 0]).MB 5 ≠ 0 ∧
    getbits (testFrame [0x18, 0x00, 0x01, 0x0A, 0, 0, 0]).MB 6 14 = 0 ∧
    getbit (testFrame [0x19, 0x90, 0x01, 0x0A, 0, 0, 0]).MB 5 ≠ 0 ∧
    getbits (testFrame [0x19, 0x90, 0x01, 0x0A, 0, 0, 0]).MB 6 14 = 100 ∧
    (decodeBDS44 (testFrame [0x18, 0x00, 0x01, 0x0A, 0, 0, 0]) false).1 = 16 ∧
    (decodeBDS44 (testFrame [0x19, 0x90, 0x01, 0x0A, 0, 0, 0]) false).1 = 33 := by
  with_unfolding_all decide

set_option maxHeartbeats 3000000 in
/-- C8 (amended): in the BDS4,4 candidate, for every payload that passes
the structural vetoes and is not clamped by the DME/DME guard, a valid wind
field contributes +19 when its raw speed is nonzero and at most 250 kt and
+2 when the raw speed is zero; a valid SAT contributes +11 when it is
nonzero and between −80 °C and +60 °C inclusive and +2 when it reads
exactly 0 °C; a valid ASP in range contributes +12, a valid turbulence
field +3 and a valid humidity field +7 (each +1 when absent); a valid wind
speed above 250 kt, or a valid nonzero SAT outside the range, vetoes
(score 0). -/
theorem bds44_scoring_weights_spec (mm : ModesMessage) :
    (getbits mm.MB 1 4 ≠ MRAR_SOURCE_DMEDME → 0 < (decodeBDS44 mm false).1 →
      (decodeBDS44 mm false).1 =
        (if getbits mm.MB 6 14 = 0 then (2 : Int) else 19) +
        (if (getbits mm.MB 26 34 : ℚ) * (0.25 : ℚ) -
            (if getbit mm.MB 25 ≠ 0 then 128 else 0) = 0 then (2 : Int) else 11) +
        (if getbit mm.MB 35 ≠ 0 then (12 : Int) else 1) +
        (if getbit mm.MB 47 ≠ 0 then (3 : Int) else 1) +
        (if getbit mm.MB 50 ≠ 0 then (7 : Int) else 1)) ∧
    (getbit mm.MB 5 ≠ 0 → 250 < getbits mm.MB 6 14 → (decodeBDS44 mm false).1 = 0) ∧
    (getbit mm.MB 24 ≠ 0 →
      (getbits mm.MB 26 34 : ℚ) * (0.25 : ℚ) - (if getbit mm.MB 25 ≠ 0 then 128 else 0) ≠ 0 →
      ¬(-80 ≤ (getbits mm.MB 26 34 : ℚ) * (0.25 : ℚ) - (if getbit mm.MB 25 ≠ 0 then 128 else 0) ∧
        (getbits mm.MB 26 34 : ℚ) * (0.25 : ℚ) - (if getbit mm.MB 25 ≠ 0 then 128 else 0) ≤ 60) →
      (decodeBDS44 mm false).1 = 0) := by
  refine ⟨?_, ?_, ?_⟩
  · intro hsrc hacc
    obtain ⟨s, hs, -⟩ := mkDecoder_pos bds44Score bds44Store mm false hacc
    have hseq : (decodeBDS44 mm false).1 = s := by
      have h := mkDecoder_fst bds44Score bds44Store mm false
      rw [hs] at h
      exact h
    rw [hseq]
    simp only [bds44Score] at hs
    split at hs
    · exact Option.noConfusion hs
    · split at hs
      · exact Option.noConfusion hs
      · rename_i hsrcok hvalid
        split at hs
        · exact Option.noConfusion hs
        · split at hs
          · exact Option.noConfusion hs
          · split at hs
            · exact Option.noConfusion hs
            · split at hs <;> [skip; exact Option.noConfusion hs]
              rename_i w sa a t hu h1 h2 h3 h4 h5
              simp only [Option.some.injEq] at hs
              subst hs
              have hwv : getbit mm.MB 5 ≠ 0 := fun hz => hvalid (Or.inl hz)
              have hsv : getbit mm.MB 24 ≠ 0 := fun hz => hvalid (Or.inr hz)
              rw [if_pos hwv] at h1
              rw [if_pos hsv] at h2
              rw [if_pos hsv] at h2
              rw [if_neg (fun hc => hsrc hc.1)]
              have hw : w = if getbits mm.MB 6 14 = 0 then (2 : Int) else 19 := by
                by_cases hz : getbits mm.MB 6 14 = 0
                · rw [if_pos hz] at h1
                  rw [if_pos hz]
                  simp only [Option.some.injEq] at h1
                  omega
                · rw [if_neg hz] at h1
                  rw [if_neg hz]
                  split at h1
                  · simp only [Option.some.injEq] at h1
                    omega
                  · exact Option.noConfusion h1
              have hsa : sa = if (getbits mm.MB 26 34 : ℚ) * (0.25 : ℚ) -
                  (if getbit mm.MB 25 ≠ 0 then 128 else 0) = 0 then (2 : Int) else 11 := by
                by_cases hz : (getbits mm.MB 26 34 : ℚ) * (0.25 : ℚ) -
                    (if getbit mm.MB 25 ≠ 0 then 128 else 0) = 0
                · rw [if_pos hz] at h2
                  rw [if_pos hz]
                  simp only [Option.some.injEq] at h2
                  omega
                · rw [if_neg hz] at h2
                  rw [if_neg hz]
                  by_cases hr2 : -80 ≤ (getbits mm.MB 26 34 : ℚ) * (0.25 : ℚ) -
                      (if getbit mm.MB 25 ≠ 0 then 128 else 0) ∧
                      (getbits mm.MB 26 34 : ℚ) * (0.25 : ℚ) -
                      (if getbit mm.MB 25 ≠ 0 then 128 else 0) ≤ 60
                  · rw [if_pos hr2] at h2
                    simp only [Option.some.injEq] at h2
                    omega
                  · rw [if_neg hr2] at h2
                    exact Option.noConfusion h2
              have ha : a = if getbit mm.MB 35 ≠ 0 then (12 : Int) else 1 := by
                by_cases hv : getbit mm.MB 35 ≠ 0
                · rw [if_pos hv] at h3
                  rw [if_pos hv]
                  split at h3
                  · simp only [Option.some.injEq] at h3
                    omega
                  · exact Option.noConfusion h3
                · rw [if_neg hv] at h3
                  rw [if_neg hv]
                  simp only [Option.some.injEq] at h3
                  omega
              have ht : t = if getbit mm.MB 47 ≠ 0 then (3 : Int) else 1 := by
                by_cases hv : getbit mm.MB 47 ≠ 0
                · rw [if_pos hv] at h4
                  rw [if_pos hv]
                  simp only [Option.some.injEq] at h4
                  omega
                · rw [if_neg hv] at h4
                  rw [if_neg hv]
                  simp only [Option.some.injEq] at h4
                  omega
              have hhu : hu = if getbit mm.MB 50 ≠ 0 then (7 : Int) else 1 := by
                by_cases hv : getbit mm.MB 50 ≠ 0
                · rw [if_pos hv] at h5
                  rw [if_pos hv]
                  simp only [Option.some.injEq] at h5
                  omega
                · rw [if_neg hv] at h5
                  rw [if_neg hv]
                  simp only [Option.some.injEq] at h5
                  omega
              rw [hw, hsa, ha, ht, hhu]
  · intro h5v hr
    have h : (decodeBDS44 mm false).1 = (bds44Score mm).getD 0 :=
      mkDecoder_fst bds44Score bds44Store mm false
    have hnone : bds44Score mm = none := by
      simp only [bds44Score]
      split
      · rfl
      · split
        · rfl
        · split
          · rfl
          · split
            · rfl
            · split
              · rfl
              · split
                · rename_i w sa a t hu h1 h2 h3 h4 h5
                  rw [if_neg (by omega),
                    if_neg (not_le.mpr (by exact_mod_cast hr))] at h1
                  exact Option.noConfusion h1
                · rfl
    rw [hnone] at h
    exact h
  · intro hsv hne hnr
    have h : (decodeBDS44 mm false).1 = (bds44Score mm).getD 0 :=
      mkDecoder_fst bds44Score bds44Store mm false
    have hnone : bds44Score mm = none := by
      simp only [bds44Score]
      split
      · rfl
      · split
        · rfl
        · split
          · rfl
          · split
            · rfl
            · split
              · rfl
              · split
                · rename_i w sa a t hu h1 h2 h3 h4 h5
                  exact Option.noConfusion h2
                · rfl
    rw [hnone] at h
    exact h

theorem bds44_scoring_weights_spec_witness :
    (decodeBDS44 (testFrame [0x19, 0x90, 0x01, 0x0A, 0, 0, 0]) false).1 = 33 ∧
    (decodeBDS44 (testFrame [0x1C, 0xB0, 0x01, 0x0A, 0, 0, 0]) false).1 = 0 ∧
    (decodeBDS44 (testFrame [0x18, 0x00, 0x01, 0x8A, 0, 0, 0]) false).1 = 0 := by
  refine ⟨?_, ?_, ?_⟩
  · have h := (bds44_scoring_weights_spec (testFrame [0x19, 0x90, 0x01, 0x0A, 0, 0, 0])).1
      (by decide) (by with_unfolding_all decide)
    rw [h]
    with_unfolding_all decide
  · exact (bds44_scoring_weights_spec (testFrame [0x1C, 0xB0, 0x01, 0x0A, 0, 0, 0])).2.1
      (by decide) (by decide)
  · exact (bds44_scoring_weights_spec (testFrame [0x18, 0x00, 0x01, 0x8A, 0, 0, 0])).2.2
      (by decide) (by with_unfolding_all decide) (by with_unfolding_all decide)

theorem bds20Loop_none (cs : List Char) (c : Char) (hc : c ∈ cs)
    (h1 : ¬goodChar c) (h2 : c ≠ '@') : ∀ s0 v0, bds20Loop cs s0 v0 = none := by
  induction cs with
  | nil => cases hc
  | cons d ds ih =>
    intro s0 v0
    simp only [bds20Loop]
    rcases List.mem_cons.mp hc with rfl | hmem
    · rw [if_neg h1, if_neg h2]
    · split
      · exact ih hmem _ _
      · split
        · exact ih hmem _ _
        · rfl

/-- C9: the BDS2,0 candidate accepts only payloads whose first byte is 0x20
and whose eight AIS characters are each an uppercase letter, a digit, a
space or the '@' padding character (anything else scores 0); an accepted
payload scores 8 plus 6 per letter, digit or space character; and the store
pass of an accepted payload containing at least one '@' still classifies
AIRCRAFT_IDENT but leaves the callsign and its validity flag untouched. -/
theorem bds20_callsign_spec (mm : ModesMessage) :
    (mm.MB.getD 0 0 ≠ (0x20 : Byte) → (decodeBDS20 mm false).1 = 0) ∧
    (∀ c ∈ bds20Chars mm.MB, ¬goodChar c → c ≠ '@' → (decodeBDS20 mm false).1 = 0) ∧
    (0 < (decodeBDS20 mm false).1 →
      (decodeBDS20 mm false).1 =
        8 + 6 * (((bds20Chars mm.MB).countP fun c => decide (goodChar c) : Nat) : Int) ∧
      ∀ c ∈ bds20Chars mm.MB, goodChar c ∨ c = '@') ∧
    (0 < (decodeBDS20 mm false).1 → '@' ∈ bds20Chars mm.MB →
      (decodeBDS20 mm true).2.commb_format = CommBFormat.aircraft_ident ∧
      (decodeBDS20 mm true).2.callsign = mm.callsign ∧
      (decodeBDS20 mm true).2.callsign_valid = mm.callsign_valid) := by
  refine ⟨?_, ?_, ?_, ?_⟩
  · intro hb0
    have h : (decodeBDS20 mm false).1 = (bds20Score mm).getD 0 :=
      mkDecoder_fst bds20Score bds20Store mm false
    have hnone : bds20Score mm = none := by
      simp only [bds20Score]
      rw [if_pos hb0]
    rw [hnone] at h
    exact h
  · intro c hc h1 h2
    have h : (decodeBDS20 mm false).1 = (bds20Score mm).getD 0 :=
      mkDecoder_fst bds20Score bds20Store mm false
    have hnone : bds20Score mm = none := by
      simp only [bds20Score]
      split
      · rfl
      · rw [bds20Loop_none (bds20Chars mm.MB) c hc h1 h2 8 true]
    rw [hnone] at h
    exact h
  · intro hpos
    obtain ⟨s, hs, -⟩ := mkDecoder_pos bds20Score bds20Store mm false hpos
    have hseq : (decodeBDS20 mm false).1 = s := by
      have h : (decodeBDS20 mm false).1 = (bds20Score mm).getD 0 :=
        mkDecoder_fst bds20Score bds20Store mm false
      rw [hs] at h
      exact h
    obtain ⟨-, v, hloop⟩ := bds20Score_inv mm s hs
    obtain ⟨h1, -, h3⟩ := bds20Loop_spec _ _ _ _ _ hloop
    exact ⟨by rw [hseq]; omega, h3⟩
  · intro hpos hat
    obtain ⟨s, hs, -⟩ := mkDecoder_pos bds20Score bds20Store mm false hpos
    have hstore : (decodeBDS20 mm true).2 = bds20Store mm :=
      mkDecoder_snd_true bds20Score bds20Store mm s hs
    obtain ⟨-, v, hloop⟩ := bds20Score_inv mm s hs
    obtain ⟨-, h2, -⟩ := bds20Loop_spec _ _ _ _ _ hloop
    have hv : v = false := by
      rw [h2, Bool.true_and]
      refine List.all_eq_false.mpr ⟨'@', hat, ?_⟩
      simp
    rw [hstore]
    simp only [bds20Store]
    rw [hloop, hv]
    simp

theorem bds20_callsign_spec_witness :
    (decodeBDS20 (testFrame [0x20, 0, 0, 0, 0, 0, 0]) true).2.commb_format =
      CommBFormat.aircraft_ident ∧
    (decodeBDS20 (testFrame [0x20, 0, 0, 0, 0, 0, 0]) true).2.callsign =
      (testFrame [0x20, 0, 0, 0, 0, 0, 0]).callsign ∧
    (decodeBDS20 (testFrame [0x20, 0, 0, 0, 0, 0, 0]) true).2.callsign_valid =
      (testFrame [0x20, 0, 0, 0, 0, 0, 0]).callsign_valid :=
  (bds20_callsign_spec (testFrame [0x20, 0, 0, 0, 0, 0, 0])).2.2.2
    (by decide) (by decide)
